import Mathlib

/-!
# R2Multiplex — shallow embedding and verification

A shallow embedding of the R2Multiplex Cloudflare Worker (`src/index.ts`,
two revisions of the worker separated in the source file), covering:

* the hash router (`pickBucket`, both revisions),
* the SigV4 authorization-header parser and the inbound verifier
  (`parseAuthorizationHeader`, `verifySignature`),
* the outbound signer (`createSignedR2Request`),
* the list orchestrator's merge/pagination pipeline and its
  continuation-token codec (`handleListObjectsV2`, `btoa`/`atob` +
  `JSON.stringify`/`JSON.parse` restricted to the values the worker uses),
* the top-level request dispatcher (`fetch`).

JavaScript strings are modelled as Lean `String`s; where JS semantics
depend on UTF-16 code units (string `<`/`>` comparison, `charCodeAt`,
`btoa`'s Latin-1 restriction) the model works on the explicit UTF-16
code-unit sequence of the string.  External collaborators (SHA-256, the
`SignatureV4` signer, the HTTP transport, per-bucket list responses) are
parameters of the model.
-/

namespace R2

/-! ## JS string primitives: UTF-16 code units and string comparison -/

/-- The UTF-16 code units of one Unicode scalar value, as produced by
JavaScript string iteration (`charCodeAt`): one unit below `0x10000`,
a surrogate pair otherwise. -/
def charUnits (c : Char) : List Nat :=
  let n := c.toNat
  if n < 0x10000 then [n]
  else [0xD800 + (n - 0x10000) / 0x400, 0xDC00 + (n - 0x10000) % 0x400]

/-- The UTF-16 code-unit sequence of a string (JS `charCodeAt` view). -/
def utf16Units (s : String) : List Nat :=
  (s.data.map charUnits).flatten

/-- Lexicographic comparison of code-unit sequences. -/
def unitsCmp : List Nat → List Nat → Ordering
  | [], [] => .eq
  | [], _ :: _ => .lt
  | _ :: _, [] => .gt
  | a :: as, b :: bs =>
    if a < b then .lt else if b < a then .gt else unitsCmp as bs

/-- JavaScript `<` on strings: lexicographic on UTF-16 code units. -/
def jsStrLt (a b : String) : Bool :=
  unitsCmp (utf16Units a) (utf16Units b) = .lt

/-- JavaScript `>` on strings (used by the pagination cut
`obj.Key > cursor`): lexicographic on UTF-16 code units. -/
def jsStrGt (a b : String) : Bool :=
  unitsCmp (utf16Units a) (utf16Units b) = .gt

/-- Byte-wise (UTF-8 binary, equivalently code-point) "less or equal" on
keys, the order S3 documents for `ListObjectsV2` results.  For the
code-unit sequences of well-formed strings below `0x10000` this agrees
with `jsStrLt`/`jsStrGt`. -/
def byteLe (a b : String) : Bool :=
  unitsCmp (utf16Units a) (utf16Units b) ≠ .gt

/-! ## Model of `String.prototype.localeCompare` (default locale)

`allObjects.sort((a, b) => a.Key.localeCompare(b.Key))` compares with the
default-locale (ICU root) collator, *not* with code-unit order.  For ASCII
text the root collation compares primary weights (the case-folded
characters) first and breaks ties at the case level, lowercase before
uppercase: `"a" < "A" < "b" < "B"`, so e.g. `"a".localeCompare("B") = -1`
while in code-unit order `'B' (0x42) < 'a' (0x61)`.  The model below
reproduces exactly that for ASCII strings (non-letters carry their code
unit as primary weight and case weight 0), which covers every string the
development evaluates the sort on. -/

/-- Primary collation weight: the case-folded code unit. -/
def caseFoldUnit (n : Nat) : Nat :=
  if 65 ≤ n ∧ n ≤ 90 then n + 32 else n

/-- Case (tertiary) collation weight: lowercase before uppercase. -/
def caseRankUnit (n : Nat) : Nat :=
  if 65 ≤ n ∧ n ≤ 90 then 1 else 0

/-- Model of `a.localeCompare(b)` under the default (root) collation,
restricted to ASCII: primary weights first, then case weights. -/
def localeCompare (a b : String) : Ordering :=
  let ua := utf16Units a
  let ub := utf16Units b
  match unitsCmp (ua.map caseFoldUnit) (ub.map caseFoldUnit) with
  | .eq => unitsCmp (ua.map caseRankUnit) (ub.map caseRankUnit)
  | o => o

/-- The "less or equal" Boolean order induced by the sort comparator
`(a, b) => a.Key.localeCompare(b.Key)`. -/
def localeLe (a b : String) : Bool :=
  localeCompare a b ≠ .gt

/-! ## Configuration and the hash router (`pickBucket`, both revisions) -/

/-- `const buckets = ['aaaa', 'bbbb']` — the configured BucketSet
(identical in both revisions). -/
def buckets : List String := ["aaaa", "bbbb"]

/-- `const myBucket = 'multiplex'` — the virtual bucket name. -/
def myBucket : String := "multiplex"

/-- Revision 1 `pickBucket`: character-code sum (`charCodeAt` over the
`split('')` units) modulo the bucket count. -/
def pickBucket1 (key : String) : String :=
  let sum := (utf16Units key).foldl (· + ·) 0
  let index := sum % buckets.length
  buckets.getD index "aaaa"

/-- UTF-8 bytes of a string (`new TextEncoder().encode(key)`). -/
def utf8Bytes (s : String) : List Nat :=
  (s.data.map (fun c => (String.utf8EncodeChar c).map UInt8.toNat)).flatten

/-- JS `ToInt32`: reduce modulo `2^32` into the signed range. -/
def toInt32 (w : Nat) : Int :=
  if w % 2 ^ 32 < 2 ^ 31 then (w % 2 ^ 32 : Int) else (w % 2 ^ 32 : Int) - 2 ^ 32

/-- Revision 2 `pickBucket`, the index computation: combine the first four
digest bytes with shifts/ors (32-bit signed in JS), take `Math.abs`, and
reduce modulo the bucket count.  `hashArray[i]` reads beyond the digest
and the `| 0`-style coercions are modelled exactly (`undefined` coerces to
`0` under `ToInt32`, hence `getD _ 0`; a `Uint8Array` element is a byte,
hence `% 256`).  The digest function (`crypto.subtle.digest('SHA-256', ·)`)
is an external collaborator and enters as a parameter. -/
def pickBucket2Index (digest : List Nat → List Nat) (key : String) : Nat :=
  let h := (digest (utf8Bytes key)).map (· % 256)
  let w := h.getD 0 0 * 2 ^ 24 + h.getD 1 0 * 2 ^ 16 + h.getD 2 0 * 2 ^ 8 + h.getD 3 0
  (toInt32 w).natAbs % buckets.length

/-- Revision 2 `pickBucket`: `buckets[index]` for the computed index. -/
def pickBucket2 (digest : List Nat → List Nat) (key : String) : String :=
  buckets.getD (pickBucket2Index digest key) "aaaa"

/-! ## SigV4 authorization-header parsing (`parseAuthorizationHeader`)

The source matches the header against the regex
`/^AWS4-HMAC-SHA256 Credential=([^,]+),\s*SignedHeaders=([^,]+),\s*Signature=(.+)$/`
and throws on a failed match.  The model returns `none` where the source
throws; the `try`/`catch` in `verifySignature` turns that into `false`. -/

/-- Characters matched by the regex class `\s` (ECMAScript WhiteSpace and
LineTerminator characters). -/
def isJsSpace (c : Char) : Bool :=
  let n := c.toNat
  n == 0x20 || n == 0x09 || n == 0x0a || n == 0x0d || n == 0x0b || n == 0x0c ||
  n == 0xa0 || n == 0x1680 || (0x2000 ≤ n && n ≤ 0x200a) ||
  n == 0x2028 || n == 0x2029 || n == 0x202f || n == 0x205f || n == 0x3000 ||
  n == 0xfeff

/-- ECMAScript line terminators, which the regex metacharacter `.` does
not match. -/
def isLineTerminator (c : Char) : Bool :=
  let n := c.toNat
  n == 0x0a || n == 0x0d || n == 0x2028 || n == 0x2029

/-- Strip an exact prefix, or fail. -/
def dropPrefixChars : List Char → List Char → Option (List Char)
  | [], s => some s
  | _ :: _, [] => none
  | p :: ps, c :: cs => if p = c then dropPrefixChars ps cs else none

/-- JS `String.prototype.startsWith` (exact-prefix test). -/
def jsStartsWith (s pre : String) : Bool :=
  (dropPrefixChars pre.data s.data).isSome

/-- JS `String.prototype.split` with a one-character separator: splits at
every occurrence, keeping empty pieces. -/
def splitOnCharAux (sep : Char) : List Char → List Char → List String
  | [], acc => [⟨acc.reverse⟩]
  | c :: cs, acc =>
    if c = sep then (⟨acc.reverse⟩ : String) :: splitOnCharAux sep cs []
    else splitOnCharAux sep cs (c :: acc)

/-- JS `split(sep)` for a one-character separator. -/
def splitOnChar (sep : Char) (cs : List Char) : List String :=
  splitOnCharAux sep cs []

/-- ASCII lowercasing (`toLowerCase` restricted to ASCII, which covers
every header name the model handles). -/
def lowerAscii (s : String) : String :=
  ⟨s.data.map (fun c =>
    if 'A' ≤ c ∧ c ≤ 'Z' then Char.ofNat (c.toNat + 32) else c)⟩

/-- The decoded fields of a SigV4 `Authorization` header.  The
`credential.split('/')` in the source can yield fewer than five parts, in
which case the later fields are `undefined`; those are `Option`s here. -/
structure ParsedAuth where
  accessKeyId : String
  dateStamp : Option String
  region : Option String
  service : Option String
  terminationString : Option String
  signedHeaders : List String
  signature : String

/-- `parseAuthorizationHeader`, modelling the anchored regex match: the
fixed literal pieces, the two `([^,]+)` captures (maximal comma-free,
non-empty, each followed by a literal comma and `\s*`), and the final
`(.+)$` capture (non-empty, no line terminators, extending to the end of
the input).  A failed match is `none` (the source throws). -/
def parseAuthorizationHeader (h : String) : Option ParsedAuth :=
  match dropPrefixChars "AWS4-HMAC-SHA256 Credential=".data h.data with
  | none => none
  | some r1 =>
    match r1.span (fun c => c != ',') with
    | (cred, r2) =>
      match cred, r2 with
      | _ :: _, ',' :: r3 =>
        let r4 := r3.dropWhile isJsSpace
        match dropPrefixChars "SignedHeaders=".data r4 with
        | none => none
        | some r5 =>
          match r5.span (fun c => c != ',') with
          | (sh, r6) =>
            match sh, r6 with
            | _ :: _, ',' :: r7 =>
              let r8 := r7.dropWhile isJsSpace
              match dropPrefixChars "Signature=".data r8 with
              | none => none
              | some sig =>
                if sig ≠ [] ∧ sig.all (fun c => ¬ isLineTerminator c) then
                  let parts := splitOnChar '/' cred
                  some { accessKeyId := parts.headD ""
                         dateStamp := parts[1]?
                         region := parts[2]?
                         service := parts[3]?
                         terminationString := parts[4]?
                         signedHeaders := splitOnChar ';' sh
                         signature := ⟨sig⟩ }
                else none
            | _, _ => none
      | _, _ => none

/-! ## Inbound verifier (`verifySignature`)

The whole body runs inside `try { ... } catch { return false }`.  The
re-signing step (`new SignatureV4({...client credentials, service/region
from the parsed header...}).sign(httpRequest)` followed by reading the
produced `authorization` header) is an external collaborator; it enters
as the parameter `resign`, which may fail (`Except.error`, the thrown
case) or produce a response without an `authorization` header (`ok none`,
the falsy-header case). -/

/-- The external re-signing collaborator: given the parsed inbound header
(which supplies the claimed service and region) and the request body, it
either throws, produces no `authorization` header, or produces one. -/
abbrev Resigner := ParsedAuth → Option (List Nat) → Except Unit (Option String)

/-- `verifySignature` of revision 2 (identical logic in revision 1):
every failure path — missing/falsy header, wrong scheme prefix, failed
regex parse, access-key mismatch, a throw while re-signing, a missing
expected header, a failed parse of the expected header — returns `false`;
otherwise the two signatures are compared for equality. -/
def verifySignature (authHeader : Option String) (clientAccessKey : String)
    (resign : Resigner) (bodyContent : Option (List Nat)) : Bool :=
  match authHeader with
  | none => false
  | some h =>
    if ¬ (jsStartsWith h "AWS4-HMAC-SHA256") then false
    else
      match parseAuthorizationHeader h with
      | none => false
      | some parsed =>
        if parsed.accessKeyId ≠ clientAccessKey then false
        else
          match resign parsed bodyContent with
          | .error _ => false
          | .ok none => false
          | .ok (some expected) =>
            match parseAuthorizationHeader expected with
            | none => false
            | some ep => parsed.signature == ep.signature

/-! ## Outbound signer (`createSignedR2Request`) -/

/-- Process-wide configuration (the worker's `Env` binding). -/
structure Env where
  clientAccessKey : String
  clientSecretKey : String
  accountId : String
  r2Key : String
  r2Secret : String

/-- The credentials/service/region configuration handed to the outbound
`SignatureV4` signer. -/
structure SignConfig where
  accessKeyId : String
  secretAccessKey : String
  service : String
  region : String
deriving DecidableEq

/-- `Headers.set`: replace any binding of `name` and add the new one.
Header names are stored lowercase (the fetch `Headers` class normalizes). -/
def hset (hs : List (String × String)) (name value : String) :
    List (String × String) :=
  hs.filter (fun p => p.1 != name) ++ [(name, value)]

/-- `Headers.get` (also used for query parameters): first binding. -/
def hlookup (hs : List (String × String)) (name : String) : Option String :=
  (hs.find? (fun p => p.1 == name)).map Prod.snd

/-- Lowercase hex of a byte sequence: `toHex` in the source
(`b.toString(16).padStart(2, '0')` per byte, joined). -/
def toHex (bs : List Nat) : String :=
  ⟨(bs.map (fun b => ["0123456789abcdef".data.getD (b % 256 / 16) '0',
                      "0123456789abcdef".data.getD (b % 16) '0'])).flatten⟩

/-- An outbound request after `createSignedR2Request`: the URL pieces,
the headers that get signed and forwarded, the signer configuration, and
the body. -/
structure SignedR2Request where
  method : String
  hostname : String
  path : String
  query : List (String × String)
  headers : List (String × String)
  config : SignConfig
  body : Option (List Nat)

/-- Should this inbound header be dropped before re-signing
(Cloudflare-injected forwarding headers and the original host)? -/
def isDroppedHeader (lowerKey : String) : Bool :=
  jsStartsWith lowerKey "cf-" || lowerKey == "x-forwarded-for" ||
  lowerKey == "x-real-ip" || lowerKey == "host"

/-- `createSignedR2Request` of revision 2: build the backend URL, copy the
inbound headers minus the dropped ones, overwrite `host` with the backend
host and `x-amz-content-sha256` with the hex SHA-256 of the body (of the
empty byte sequence when there is no body), and sign with the backend
credentials for service `s3`, region `auto`.  The SHA-256 primitive is the
external parameter `digest`. -/
def createSignedR2Request (method bucketName path : String) (env : Env)
    (queryParams : Option (List (String × String)))
    (headers : Option (List (String × String)))
    (body : Option (List Nat)) (digest : List Nat → List Nat) :
    SignedR2Request :=
  let hostname := env.accountId ++ ".r2.cloudflarestorage.com"
  let filtered :=
    match headers with
    | none => []
    | some hs =>
      hs.foldl (fun acc kv =>
        let lowerKey := lowerAscii kv.1
        if isDroppedHeader lowerKey then acc else hset acc lowerKey kv.2) []
  let h1 := hset filtered "host" hostname
  let h2 := hset h1 "x-amz-content-sha256" (toHex (digest (body.getD [])))
  { method := method
    hostname := hostname
    path := "/" ++ bucketName ++ path
    query := queryParams.getD []
    headers := h2
    config := { accessKeyId := env.r2Key, secretAccessKey := env.r2Secret,
                service := "s3", region := "auto" }
    body := body }

/-! ## Request dispatcher (`fetch`, revision 2) -/

/-- An inbound request as the dispatcher sees it: method, URL pieces,
headers (lowercase names), and whether a body stream is attached
(`req.body` non-null) together with its bytes. -/
structure Req where
  method : String
  pathname : String
  query : List (String × String)
  headers : List (String × String)
  hasBody : Bool
  body : List Nat

/-- `req.body && (req.method === 'PUT' || 'POST' || 'PATCH')`: the body is
read only for those methods; otherwise `bodyContent` stays `undefined`. -/
def computeBody (req : Req) : Option (List Nat) :=
  if req.hasBody && (req.method == "PUT" || req.method == "POST" ||
      req.method == "PATCH")
  then some req.body else none

/-- JS `String.prototype.replace` with a plain-string pattern: replace the
first occurrence only. -/
def replaceFirstChars (pat repl : List Char) : List Char → List Char
  | [] => match dropPrefixChars pat [] with
          | some rest => repl ++ rest
          | none => []
  | c :: cs =>
    match dropPrefixChars pat (c :: cs) with
    | some rest => repl ++ rest
    | none => c :: replaceFirstChars pat repl cs

/-- `url.pathname.replace('/multiplex', '').replace(/^\/+/, '')` — the
path with the virtual bucket name and leading slashes removed, used to
recognize a bare listing. -/
def pathWithoutBucket (pathname : String) : String :=
  ⟨(replaceFirstChars ("/" ++ myBucket).data [] pathname.data).dropWhile
    (fun c => c == '/')⟩

/-- Key extraction: strip the leading slash, and if the first path
segment is the virtual bucket name (and there is more), drop it. -/
def extractKey (pathname : String) : String :=
  let key : String := ⟨pathname.data.drop 1⟩
  let pathParts := splitOnChar '/' key.data
  if pathParts.length > 1 && pathParts.headD "" == myBucket then
    String.intercalate "/" (pathParts.drop 1)
  else key

/-- Lookup of a query parameter (`url.searchParams.get`). -/
def qget (q : List (String × String)) (name : String) : Option String :=
  hlookup q name

/-- `url.searchParams.has`. -/
def qhas (q : List (String × String)) (name : String) : Bool :=
  (qget q name).isSome

/-- What the dispatcher does with a request: an immediate HTTP response,
delegation to the list orchestrator, or a signed forward to one bucket. -/
inductive Outcome where
  | respond (status : Nat) (body : String)
  | listV2
  | forward (r : SignedR2Request)

/-- The revision-2 `fetch` handler up to the point a response, the list
orchestrator, or a signed single-bucket forward is chosen.  `digest` and
`resign` are the external SHA-256 and signing collaborators. -/
def fetchHandler (env : Env) (digest : List Nat → List Nat)
    (resign : Resigner) (req : Req) : Outcome :=
  let bodyContent := computeBody req
  if ¬ verifySignature (hlookup req.headers "authorization")
      env.clientAccessKey resign bodyContent then
    .respond 401 "Unauthorized: Invalid signature"
  else if req.method == "GET" && (qget req.query "list-type" == some "2") then
    .listV2
  else if req.method == "GET" && (qhas req.query "list-type" &&
      (qget req.query "list-type" == some "1")) then
    .respond 501 "ListObjects v1 not implemented yet"
  else if req.method == "GET" && (pathWithoutBucket req.pathname == "" &&
      !qhas req.query "list-type") then
    .respond 501 "ListObjects v1 not implemented yet"
  else if req.method == "GET" && qhas req.query "versions" then
    .respond 501 "ListObjectVersions not implemented yet"
  else if req.method == "GET" && qhas req.query "uploads" then
    .respond 501 "ListMultipartUploads not implemented yet"
  else
    let key := extractKey req.pathname
    if key == "" then
      .respond 400 "Bad Request: No key specified"
    else
      .forward (createSignedR2Request req.method (pickBucket2 digest key)
        ("/" ++ key) env (some req.query) (some req.headers) bodyContent digest)

/-! ## Base64 (`btoa` / `atob`)

The continuation-token codec is `btoa(JSON.stringify(token))` on the way
out and `JSON.parse(atob(token))` on the way in.  `btoa` throws
(`InvalidCharacterError`) when any UTF-16 code unit of its argument
exceeds `0xFF`; `atob` implements WHATWG forgiving-base64: ASCII
whitespace is stripped, `=` padding is accepted only at the very end, a
remainder of one character or any out-of-alphabet character fails. -/

/-- The base64 alphabet. -/
def b64Alpha : List Char :=
  "ABCDEFGHIJKLMNOPQRSTUVWXYZabcdefghijklmnopqrstuvwxyz0123456789+/".data

/-- Sextet to alphabet character. -/
def b64Char (n : Nat) : Char := b64Alpha.getD n 'A'

/-- Alphabet character back to its sextet (`none` off-alphabet). -/
def b64Val (c : Char) : Option Nat :=
  let i := b64Alpha.findIdx (· == c)
  if i < 64 then some i else none

/-- Encode bytes in groups of three, padding the final group. -/
def btoaChunks : List Nat → List Char
  | [] => []
  | [a] => [b64Char (a / 4), b64Char (a % 4 * 16), '=', '=']
  | [a, b] => [b64Char (a / 4), b64Char (a % 4 * 16 + b / 16),
               b64Char (b % 16 * 4), '=']
  | a :: b :: c :: rest =>
    b64Char (a / 4) :: b64Char (a % 4 * 16 + b / 16) ::
    b64Char (b % 16 * 4 + c / 64) :: b64Char (c % 64) :: btoaChunks rest

/-- `btoa`: fails when a code unit exceeds `0xFF`, else encodes the
units as bytes. -/
def btoa (s : String) : Option String :=
  let us := utf16Units s
  if us.all (· ≤ 255) then some ⟨btoaChunks us⟩ else none

/-- ASCII whitespace, stripped by forgiving-base64. -/
def isAsciiWs (c : Char) : Bool :=
  c == ' ' || c == '\t' || c == '\n' || c == '\x0c' || c == '\r'

/-- Decode (whitespace already stripped) in groups of four; `=` padding
only in the final group. -/
def atobChunks : List Char → Option (List Nat)
  | [] => some []
  | [_] => none
  | [c1, c2] => do
    let a ← b64Val c1
    let b ← b64Val c2
    some [a * 4 + b / 16]
  | [c1, c2, c3] => do
    let a ← b64Val c1
    let b ← b64Val c2
    let c ← b64Val c3
    some [a * 4 + b / 16, b % 16 * 16 + c / 4]
  | c1 :: c2 :: c3 :: c4 :: rest =>
    if rest.isEmpty && c4 == '=' then
      if c3 == '=' then do
        let a ← b64Val c1
        let b ← b64Val c2
        some [a * 4 + b / 16]
      else do
        let a ← b64Val c1
        let b ← b64Val c2
        let c ← b64Val c3
        some [a * 4 + b / 16, b % 16 * 16 + c / 4]
    else do
      let a ← b64Val c1
      let b ← b64Val c2
      let c ← b64Val c3
      let d ← b64Val c4
      let tail ← atobChunks rest
      some ((a * 4 + b / 16) :: (b % 16 * 16 + c / 4) :: (c % 4 * 64 + d) :: tail)

/-- `atob`: strip ASCII whitespace, decode, return the bytes as a
(Latin-1) string; `none` where the real `atob` throws. -/
def atob (s : String) : Option String :=
  let cs := s.data.filter (fun c => !isAsciiWs c)
  (atobChunks cs).map (fun bytes => ⟨bytes.map Char.ofNat⟩)

/-! ## JSON values, `JSON.stringify` of the token, and `JSON.parse`

The worker serializes exactly one JSON shape — the token object
`{bucket, key, position}` — and parses arbitrary attacker-supplied JSON.
`Json` models the parsed values; fractional or exponent numbers are kept
only as the opaque `numNonInt` (their numeric value is never used by the
worker's token handling: any non-string `key` cursor compares `false`,
and only an exact string `bucket` can match a bucket name). -/

inductive Json where
  | null
  | bool (b : Bool)
  | num (n : Int)
  | numNonInt
  | str (s : String)
  | arr (elems : List Json)
  | obj (fields : List (String × Json))

/-- Hex digit characters (lowercase), as `Number.prototype.toString(16)`
produces. -/
def hexChar (n : Nat) : Char := "0123456789abcdef".data.getD n '0'

/-- `JSON.stringify` escaping of one character: `\"`, `\\`, the named
control escapes, `\u00XX` for other controls, else the character
itself. -/
def jsonEscapeChar (c : Char) : List Char :=
  if c = '"' then ['\\', '"']
  else if c = '\\' then ['\\', '\\']
  else if c = '\x08' then ['\\', 'b']
  else if c = '\t' then ['\\', 't']
  else if c = '\n' then ['\\', 'n']
  else if c = '\x0c' then ['\\', 'f']
  else if c = '\r' then ['\\', 'r']
  else if c.toNat < 32 then
    ['\\', 'u', '0', '0', hexChar (c.toNat / 16), hexChar (c.toNat % 16)]
  else [c]

/-- A `JSON.stringify`d string literal: quote, escaped body, quote. -/
def jsonQuote (s : String) : List Char :=
  '"' :: (s.data.map jsonEscapeChar).flatten ++ ['"']

/-- Decimal digits, least significant first, with explicit fuel (any
fuel above the value works; `n / 10` shrinks every step). -/
def decDigitsRevFuel : Nat → Nat → List Nat
  | 0, _ => []
  | fuel + 1, n =>
    if n < 10 then [n] else n % 10 :: decDigitsRevFuel fuel (n / 10)

/-- Decimal digits of a natural number, least significant first. -/
def decDigitsRev (n : Nat) : List Nat := decDigitsRevFuel (n + 1) n

/-- Decimal notation of a natural number (no leading zeros). -/
def natToDec (n : Nat) : List Char :=
  (decDigitsRev n).reverse.map (fun d => Char.ofNat (48 + d))

/-- `JSON.stringify({bucket, key, position})` with `position : Nat` —
field order is the object-literal insertion order. -/
def stringifyToken (bucket key : String) (position : Nat) : String :=
  ⟨"\x7b\"bucket\":".data ++ jsonQuote bucket ++ ",\"key\":".data ++
   jsonQuote key ++ ",\"position\":".data ++ natToDec position ++ "\x7d".data⟩

/-- `btoa(JSON.stringify(token))` — `NextContinuationToken` generation;
`none` models the `btoa` throw on non-Latin-1 keys. -/
def encodeContinuationToken (bucket key : String) (position : Nat) :
    Option String :=
  btoa (stringifyToken bucket key position)

/-- JSON whitespace. -/
def skipWsJson (cs : List Char) : List Char :=
  cs.dropWhile (fun c => c == ' ' || c == '\t' || c == '\n' || c == '\r')

/-- Hex digit value (either case). -/
def hexVal (c : Char) : Option Nat :=
  if '0' ≤ c ∧ c ≤ '9' then some (c.toNat - 48)
  else if 'a' ≤ c ∧ c ≤ 'f' then some (c.toNat - 87)
  else if 'A' ≤ c ∧ c ≤ 'F' then some (c.toNat - 55)
  else none

/-- Parse a string-literal body after the opening quote: plain characters
(raw controls are invalid), the short escapes, and `\uXXXX`. -/
def parseStrBody : List Char → Option (List Char × List Char)
  | [] => none
  | c :: rest =>
    if c = '"' then some ([], rest)
    else if c = '\\' then
      match rest with
      | [] => none
      | e :: r2 =>
        if e = '"' then (parseStrBody r2).map (fun p => ('"' :: p.1, p.2))
        else if e = '\\' then (parseStrBody r2).map (fun p => ('\\' :: p.1, p.2))
        else if e = '/' then (parseStrBody r2).map (fun p => ('/' :: p.1, p.2))
        else if e = 'b' then (parseStrBody r2).map (fun p => ('\x08' :: p.1, p.2))
        else if e = 'f' then (parseStrBody r2).map (fun p => ('\x0c' :: p.1, p.2))
        else if e = 'n' then (parseStrBody r2).map (fun p => ('\n' :: p.1, p.2))
        else if e = 'r' then (parseStrBody r2).map (fun p => ('\r' :: p.1, p.2))
        else if e = 't' then (parseStrBody r2).map (fun p => ('\t' :: p.1, p.2))
        else if e = 'u' then
          match r2 with
          | a :: b :: cc :: d :: r3 => do
            let ha ← hexVal a
            let hb ← hexVal b
            let hc ← hexVal cc
            let hd ← hexVal d
            let p ← parseStrBody r3
            some (Char.ofNat (((ha * 16 + hb) * 16 + hc) * 16 + hd) :: p.1, p.2)
          | _ => none
        else none
    else if c.toNat < 32 then none
    else (parseStrBody rest).map (fun p => (c :: p.1, p.2))

/-- Consume a run of decimal digits, folding them onto `acc`. -/
def parseDigitsAcc : Nat → List Char → Nat × List Char
  | acc, [] => (acc, [])
  | acc, c :: cs =>
    if c.isDigit then parseDigitsAcc (10 * acc + (c.toNat - 48)) cs
    else (acc, c :: cs)

/-- Negate a parsed number (for a leading `-`). -/
def jsonNegate : Json → Json
  | .num n => .num (-n)
  | j => j

/-- Exponent digits (at least one). -/
def parseExpDigits : List Char → Option (List Char)
  | c :: rest => if c.isDigit then some (parseDigitsAcc 0 rest).2 else none
  | [] => none

/-- Exponent after `e`/`E`: optional sign, then digits. -/
def parseExpTail : List Char → Option (List Char)
  | '+' :: rest => parseExpDigits rest
  | '-' :: rest => parseExpDigits rest
  | cs => parseExpDigits cs

/-- After the integer part: an optional fraction and/or exponent turns
the number into `numNonInt`; otherwise it is the integer itself. -/
def parseNumTail (v : Int) : List Char → Option (Json × List Char)
  | '.' :: rest =>
    match rest with
    | c :: rest2 =>
      if c.isDigit then
        let r := (parseDigitsAcc 0 rest2).2
        match r with
        | 'e' :: r2 => (parseExpTail r2).map (fun r3 => (Json.numNonInt, r3))
        | 'E' :: r2 => (parseExpTail r2).map (fun r3 => (Json.numNonInt, r3))
        | _ => some (.numNonInt, r)
      else none
    | [] => none
  | cs =>
    match cs with
    | 'e' :: r2 => (parseExpTail r2).map (fun r3 => (Json.numNonInt, r3))
    | 'E' :: r2 => (parseExpTail r2).map (fun r3 => (Json.numNonInt, r3))
    | _ => some (.num v, cs)

/-- An unsigned JSON number: `0` or a nonzero digit followed by more
digits, then the fraction/exponent tail. -/
def parseUnsigned : List Char → Option (Json × List Char)
  | c :: rest =>
    if c = '0' then parseNumTail 0 rest
    else if c.isDigit then
      let p := parseDigitsAcc (c.toNat - 48) rest
      parseNumTail p.1 p.2
    else none
  | [] => none

mutual

/-- `JSON.parse` value parser.  The fuel only bounds the nesting/member
recursion; every real input is covered because each recursive call
consumes at least one character and the entry point supplies
`length + 10` fuel. -/
def parseValue : Nat → List Char → Option (Json × List Char)
  | 0, _ => none
  | fuel + 1, cs =>
    match skipWsJson cs with
    | [] => none
    | c :: rest =>
      if c = '"' then (parseStrBody rest).map (fun p => (.str ⟨p.1⟩, p.2))
      else if c = '{' then
        match skipWsJson rest with
        | '}' :: r2 => some (.obj [], r2)
        | r2 => (parseMembers fuel r2).map (fun p => (.obj p.1, p.2))
      else if c = '[' then
        match skipWsJson rest with
        | ']' :: r2 => some (.arr [], r2)
        | r2 => (parseElems fuel r2).map (fun p => (.arr p.1, p.2))
      else if c = 't' then
        (dropPrefixChars "rue".data rest).map (fun r => (.bool true, r))
      else if c = 'f' then
        (dropPrefixChars "alse".data rest).map (fun r => (.bool false, r))
      else if c = 'n' then
        (dropPrefixChars "ull".data rest).map (fun r => (.null, r))
      else if c = '-' then
        (parseUnsigned rest).map (fun p => (jsonNegate p.1, p.2))
      else if c.isDigit then parseUnsigned (c :: rest)
      else none

/-- Object members: `"key" : value` separated by commas, closed by `}`. -/
def parseMembers : Nat → List Char → Option (List (String × Json) × List Char)
  | 0, _ => none
  | fuel + 1, cs =>
    match skipWsJson cs with
    | '"' :: rest => do
      let kp ← parseStrBody rest
      match skipWsJson kp.2 with
      | ':' :: r2 => do
        let vp ← parseValue fuel r2
        match skipWsJson vp.2 with
        | ',' :: r4 => do
          let fp ← parseMembers fuel r4
          some (((⟨kp.1⟩ : String), vp.1) :: fp.1, fp.2)
        | '}' :: r4 => some ([((⟨kp.1⟩ : String), vp.1)], r4)
        | _ => none
      | _ => none
    | _ => none

/-- Array elements separated by commas, closed by `]`. -/
def parseElems : Nat → List Char → Option (List Json × List Char)
  | 0, _ => none
  | fuel + 1, cs => do
    let vp ← parseValue fuel cs
    match skipWsJson vp.2 with
    | ',' :: r2 => do
      let ep ← parseElems fuel r2
      some (vp.1 :: ep.1, ep.2)
    | ']' :: r2 => some ([vp.1], r2)
    | _ => none

end

/-- `JSON.parse`: one value, then only trailing whitespace. -/
def jsonParse (s : String) : Option Json :=
  match parseValue (s.data.length + 10) s.data with
  | some (v, rest) => if skipWsJson rest = [] then some v else none
  | none => none

/-- `JSON.parse(atob(token))` — continuation-token decoding; `none`
models the thrown/caught case that the handler turns into HTTP 400. -/
def decodeContinuationToken (tok : String) : Option Json :=
  (atob tok).bind jsonParse

/-! ## List orchestrator (`handleListObjectsV2`) -/

/-- One parsed `Contents` entry of a per-bucket `ListBucketResult`; the
fields other than `Key` (LastModified, ETag, Size, …) are carried
opaquely as `payload`. -/
structure Entry where
  key : String
  payload : Nat := 0
deriving DecidableEq

/-- JS truthiness of a parsed JSON value (`if (parsedToken)`).
`numNonInt` is approximated as truthy; the only wrong case would be a
fractional zero, which no theorem below touches. -/
def jsTruthy : Json → Bool
  | .null => false
  | .bool b => b
  | .num n => n != 0
  | .numNonInt => true
  | .str s => s != ""
  | .arr _ => true
  | .obj _ => true

/-- JS property access on a parsed JSON value: `obj` fields with
last-binding-wins (duplicate JSON keys), everything else `undefined`
(`none`). -/
def jGet : Json → String → Option Json
  | .obj fs, k => (fs.reverse.find? (fun p => p.1 == k)).map (·.2)
  | _, _ => none

/-- `obj.Key > parsedToken.key` for the pagination cut: a string cursor
compares by UTF-16 code units; `undefined` or any non-string cursor
makes the comparison `false`.  (JS would compare numerically when the
cursor is a number and the key is a numeric string — a corner no theorem
relies on.) -/
def keyGtCursor (objKey : String) (cursor : Option Json) : Bool :=
  match cursor with
  | some (.str s) => jsStrGt objKey s
  | _ => false

/-- String coercion of a JS value, as `URLSearchParams.set` applies
(arrays and `numNonInt` approximated; no theorem depends on them). -/
def jsToStringApprox : Option Json → String
  | some (.str s) => s
  | some .null => "null"
  | some (.bool b) => if b then "true" else "false"
  | some (.num n) =>
    if n < 0 then ⟨'-' :: natToDec n.natAbs⟩ else ⟨natToDec n.natAbs⟩
  | some .numNonInt => ""
  | some (.arr _) => ""
  | some (.obj _) => "[object Object]"
  | none => "undefined"

/-- `Json` equality for a `===` test against a string (structural). -/
def jsonBeq : Json → Json → Bool
  | .null, .null => true
  | .bool a, .bool b => a == b
  | .num a, .num b => a == b
  | .str a, .str b => a == b
  | _, _ => false

instance : BEq Json := ⟨jsonBeq⟩

/-- The query parameters of one per-bucket fan-out request: `list-type=2`,
the pass-through parameters, the fixed `max-keys=1000` over-fetch cap,
and — when the decoded continuation token names this bucket — the
token's key as this bucket's `start-after` cursor. -/
def mkBucketParams (prefixParam : String) (delimiter : Option String)
    (startAfter : Option String) (fetchOwner : Bool)
    (parsedToken : Option Json) (bucketName : String) :
    List (String × String) :=
  let p := hset [] "list-type" "2"
  let p := if prefixParam != "" then hset p "prefix" prefixParam else p
  let p := match delimiter with
           | some d => if d != "" then hset p "delimiter" d else p
           | none => p
  let p := hset p "max-keys" "1000"
  let p := match startAfter with
           | some sa => if sa != "" then hset p "start-after" sa else p
           | none => p
  let p := if fetchOwner then hset p "fetch-owner" "true" else p
  match parsedToken with
  | some t =>
    if jsTruthy t && (jGet t "bucket" == some (Json.str bucketName)) then
      hset p "start-after" (jsToStringApprox (jGet t "key"))
    else p
  | none => p

/-- What the merge phase produces: a merged page (`ok`), an early HTTP
response, or an uncaught throw (`btoa` on a non-Latin-1 key). -/
inductive ListOutcome where
  | respond (status : Nat) (body : String)
  | ok (contents : List Entry) (isTruncated : Bool)
       (nextContinuationToken : Option String)
       (commonPrefixes : List String)
  | thrown
deriving DecidableEq

/-- Insertion-ordered deduplication (the `Set` of common prefixes). -/
def dedupKeepFirst (l : List String) : List String :=
  l.foldl (fun acc s => if acc.contains s then acc else acc ++ [s]) []

/-- Default JS `Array.prototype.sort()` "less or equal" on strings:
UTF-16 code-unit order. -/
def jsDefaultLe (a b : String) : Bool :=
  unitsCmp (utf16Units a) (utf16Units b) ≠ .gt

/-- A stable sort by a Boolean "less or equal" comparator (insertion
sort; `Array.prototype.sort` is likewise stable, so the result agrees
with the source's sort for any consistent comparator). -/
def insertSorted {α : Type} (le : α → α → Bool) (a : α) : List α → List α
  | [] => [a]
  | b :: bs => if le b a then b :: insertSorted le a bs else a :: b :: bs

/-- Stable sort by a Boolean comparator. -/
def sortByLe {α : Type} (le : α → α → Bool) : List α → List α
  | [] => []
  | a :: as => insertSorted le a (sortByLe le as)

/-- `allObjects.sort((a, b) => a.Key.localeCompare(b.Key))` — the global
sort of the concatenated entries. -/
def sortEntries (allObjects : List Entry) : List Entry :=
  sortByLe (fun a b => localeLe a.key b.key) allObjects

/-- The resume position on the merged, sorted list: with a truthy decoded
token, the first index whose key is `>` the token's `key` field (the list
length when there is none, `findIndex` returning `-1`); else with a
truthy `start-after`, the same rule against that value; else `0`. -/
def resumeIndex (sorted : List Entry) (parsedToken : Option Json)
    (startAfter : Option String) : Nat :=
  if (parsedToken.map jsTruthy).getD false then
    (sorted.findIdx? (fun o =>
      keyGtCursor o.key (parsedToken.bind (jGet · "key")))).getD sorted.length
  else
    match startAfter with
    | some sa =>
      if sa != "" then
        (sorted.findIdx? (fun o => jsStrGt o.key sa)).getD sorted.length
      else 0
    | none => 0

/-- The merge phase of `handleListObjectsV2`, after all per-bucket
responses have arrived (`fragments` and `prefFragments` are the parsed
`Contents` and `CommonPrefixes` of each bucket, in bucket order):
concatenate, sort by `localeCompare`, find the resume position, slice
`[startIndex, startIndex + maxKeys)`, compute `IsTruncated`, and build
the next continuation token from the last emitted key and its
`pickBucket` bucket. -/
def listMerge (digest : List Nat → List Nat) (maxKeys : Nat)
    (parsedToken : Option Json) (startAfter : Option String)
    (fragments : List (List Entry)) (prefFragments : List (List String)) :
    ListOutcome :=
  let sorted := sortEntries fragments.flatten
  let startIndex := resumeIndex sorted parsedToken startAfter
  let resultObjects := (sorted.drop startIndex).take maxKeys
  let isTruncated := startIndex + maxKeys < sorted.length
  let commonPrefixes :=
    sortByLe jsDefaultLe (dedupKeepFirst prefFragments.flatten)
  if isTruncated && !resultObjects.isEmpty then
    let lastKey := ((resultObjects.getLast?).map (·.key)).getD ""
    match encodeContinuationToken (pickBucket2 digest lastKey) lastKey
        (startIndex + resultObjects.length) with
    | none => .thrown
    | some tok => .ok resultObjects isTruncated (some tok) commonPrefixes
  else .ok resultObjects isTruncated none commonPrefixes

/-- `parseInt(params.get('max-keys') || '1000')`: the default `1000` for
an absent or empty parameter, the digit-prefix value otherwise (`none`
models `NaN` for a parameter with no leading digit; sign and whitespace
handling of `parseInt` are not exercised by any claim). -/
def requestedMaxKeys : Option String → Option Nat
  | none => some 1000
  | some s =>
    if s = "" then some 1000
    else match s.data with
      | c :: _ =>
        if c.isDigit then some (parseDigitsAcc 0 (s.data.takeWhile Char.isDigit)).1
        else none
      | [] => none

/-- `handleListObjectsV2` from the continuation-token decode onward: a
present, non-empty `continuation-token` parameter is base64-decoded and
JSON-parsed inside `try`/`catch`, a failure returning HTTP 400
`Invalid continuation token`; then the merge phase runs. -/
def handleListObjectsV2 (digest : List Nat → List Nat) (maxKeys : Nat)
    (continuationToken : Option String) (startAfter : Option String)
    (fragments : List (List Entry)) (prefFragments : List (List String)) :
    ListOutcome :=
  match continuationToken with
  | some tok =>
    if tok != "" then
      match decodeContinuationToken tok with
      | none => .respond 400 "Invalid continuation token"
      | some v => listMerge digest maxKeys (some v) startAfter fragments prefFragments
    else listMerge digest maxKeys none startAfter fragments prefFragments
  | none => listMerge digest maxKeys none startAfter fragments prefFragments

/-- The parsed value of a well-formed continuation token
`{bucket, key, position}`. -/
def tokenJson (bucket key : String) (position : Nat) : Json :=
  .obj [("bucket", .str bucket), ("key", .str key),
        ("position", .num (position : Int))]

/-- A concrete stand-in for the SHA-256 collaborator (an all-zero
32-byte digest), used to evaluate the model on closed inputs. -/
def digestZ : List Nat → List Nat := fun _ => List.replicate 32 0

/-- Is an entry list sorted by byte-wise (S3) key order? -/
def isByteSorted : List Entry → Bool
  | [] => true
  | [_] => true
  | a :: b :: rest => byteLe a.key b.key && isByteSorted (b :: rest)

/-! ## Helper lemmas -/

theorem getD_mem {l : List String} {i : Nat} {d : String} (h : i < l.length) :
    l.getD i d ∈ l := by
  rw [List.getD_eq_getElem?_getD, List.getElem?_eq_getElem h]
  exact List.getElem_mem h

theorem find?_filter_of_imp {α : Type} (l : List α) (p q : α → Bool)
    (h : ∀ x, p x = true → q x = true) :
    (l.filter q).find? p = l.find? p := by
  induction l with
  | nil => rfl
  | cons a l ih =>
    by_cases hq : q a
    · rw [List.filter_cons_of_pos hq]
      by_cases hp : p a
      · rw [List.find?_cons_of_pos _ hp, List.find?_cons_of_pos _ hp]
      · rw [List.find?_cons_of_neg _ hp, List.find?_cons_of_neg _ hp, ih]
    · rw [List.filter_cons_of_neg hq]
      have hp : ¬ p a = true := fun hp => hq (h a hp)
      rw [List.find?_cons_of_neg _ hp, ih]

theorem hlookup_hset (hs : List (String × String)) (k' w k : String) :
    hlookup (hset hs k' w) k = if k = k' then some w else hlookup hs k := by
  unfold hlookup hset
  rw [List.find?_append]
  by_cases hk : k = k'
  · subst hk
    have hnone : (hs.filter (fun p => p.1 != k)).find? (fun p => p.1 == k) = none := by
      rw [List.find?_eq_none]
      intro x hx
      have hxq := List.of_mem_filter hx
      simpa using hxq
    simp [hnone, List.find?]
  · have h2 : (List.find? (fun p => p.1 == k) [(k', w)]) = none := by
      have hne : (k' == k) = false := beq_eq_false_iff_ne.mpr (fun h => hk h.symm)
      simp [List.find?, hne]
    have h3 : (hs.filter (fun p => p.1 != k')).find? (fun p => p.1 == k) =
        hs.find? (fun p => p.1 == k) := by
      refine find?_filter_of_imp hs _ _ (fun x hx => ?_)
      simp only [beq_iff_eq] at hx
      simp [bne_iff_ne, hx, hk]
    rw [h3, h2]
    simp [if_neg hk]

/-! ## C6 — the hash router is total, deterministic, and in-bounds -/

/-- C6: `pickBucket` is deterministic (a pure function of its inputs),
total, and returns a member of the configured BucketSet for every key,
the empty string included, in both observed revisions; for revision 2 the
computed index is within bounds of the `buckets` array for every digest
function. -/
theorem c6_pickBucket_total_and_in_bounds :
    (∀ key : String, pickBucket1 key ∈ buckets) ∧
    (∀ (digest : List Nat → List Nat) (key : String),
        pickBucket2Index digest key < buckets.length ∧
        pickBucket2 digest key ∈ buckets) ∧
    pickBucket1 "" ∈ buckets ∧
    (∀ digest : List Nat → List Nat, pickBucket2 digest "" ∈ buckets) := by
  have hpos : 0 < buckets.length := by decide
  have h1 : ∀ key : String, pickBucket1 key ∈ buckets := fun _ =>
    getD_mem (Nat.mod_lt _ hpos)
  have h2 : ∀ (digest : List Nat → List Nat) (key : String),
      pickBucket2Index digest key < buckets.length ∧
      pickBucket2 digest key ∈ buckets := fun digest key =>
    ⟨Nat.mod_lt _ hpos, getD_mem (Nat.mod_lt _ hpos)⟩
  exact ⟨h1, h2, h1 "", fun digest => (h2 digest "").2⟩

/-! ## C1 — verification failures collapse to `false` and HTTP 401 -/

/-- C1: `verifySignature` never throws to its caller — a missing
`Authorization` header, a header not starting with `AWS4-HMAC-SHA256`, a
malformed header, an access-key identifier differing from the configured
client access key, and an error raised while re-signing all collapse to
`false` (the model is a total `Bool`-valued function; thrown cases are
the `none`/`error` branches) — and the dispatcher then returns HTTP 401
with body exactly `Unauthorized: Invalid signature`. -/
theorem c1_verification_failures_collapse_to_401
    (req : Req) (env : Env) (digest : List Nat → List Nat) (resign : Resigner)
    (hfail :
      hlookup req.headers "authorization" = none ∨
      ∃ h, hlookup req.headers "authorization" = some h ∧
        (jsStartsWith h "AWS4-HMAC-SHA256" = false ∨
         parseAuthorizationHeader h = none ∨
         ∃ p, parseAuthorizationHeader h = some p ∧
           (p.accessKeyId ≠ env.clientAccessKey ∨
            resign p (computeBody req) = .error ()))) :
    verifySignature (hlookup req.headers "authorization") env.clientAccessKey
        resign (computeBody req) = false ∧
    fetchHandler env digest resign req =
      .respond 401 "Unauthorized: Invalid signature" := by
  have hv : verifySignature (hlookup req.headers "authorization")
      env.clientAccessKey resign (computeBody req) = false := by
    rcases hfail with hnone | ⟨h, hh, hcase⟩
    · rw [hnone]; rfl
    · rw [hh]
      unfold verifySignature
      rcases hcase with hpre | hparse | ⟨p, hp, hrest⟩
      · simp [hpre]
      · simp [hparse]
      · rcases hrest with hkey | hresign
        · simp [hp, hkey]
        · simp [hp, hresign]
  refine ⟨hv, ?_⟩
  unfold fetchHandler
  simp [hv]

/-- Witness for C1: a concrete request with no `Authorization` header. -/
theorem c1_witness :
    verifySignature
        (hlookup (Req.mk "GET" "/k" [] [] false []).headers "authorization")
        (Env.mk "CK" "CS" "acct" "RK" "RS").clientAccessKey
        (fun _ _ => Except.error ())
        (computeBody (Req.mk "GET" "/k" [] [] false [])) = false ∧
    fetchHandler (Env.mk "CK" "CS" "acct" "RK" "RS") digestZ
        (fun _ _ => Except.error ()) (Req.mk "GET" "/k" [] [] false []) =
      .respond 401 "Unauthorized: Invalid signature" :=
  c1_verification_failures_collapse_to_401 _ _ digestZ _ (Or.inl rfl)

/-! ## C7 — recognized-but-unsupported list variants answer HTTP 501 -/

theorem beq_some_eq_false_of_ne {a : Option String} {b : String}
    (h : a ≠ some b) : (a == some b) = false :=
  beq_eq_false_iff_ne.mpr h

/-- C7: an authenticated GET that is a recognized-but-unsupported listing
variant — `?list-type=1`; `?versions` or `?uploads` (not combined with
the supported `?list-type=2`); or a bare listing with no object key and
no `list-type` parameter — receives HTTP 501 with one of the descriptive
bodies, and is never misrouted to the single-bucket forward path (nor to
the ListObjectsV2 orchestrator). -/
theorem c7_unsupported_list_variants_get_501
    (req : Req) (env : Env) (digest : List Nat → List Nat) (resign : Resigner)
    (hauth : verifySignature (hlookup req.headers "authorization")
        env.clientAccessKey resign (computeBody req) = true)
    (hget : req.method = "GET")
    (hvariant :
      qget req.query "list-type" = some "1" ∨
      (qhas req.query "versions" = true ∧
        qget req.query "list-type" ≠ some "2") ∨
      (qhas req.query "uploads" = true ∧
        qget req.query "list-type" ≠ some "2") ∨
      (pathWithoutBucket req.pathname = "" ∧
        qget req.query "list-type" = none)) :
    (fetchHandler env digest resign req =
        .respond 501 "ListObjects v1 not implemented yet" ∨
     fetchHandler env digest resign req =
        .respond 501 "ListObjectVersions not implemented yet" ∨
     fetchHandler env digest resign req =
        .respond 501 "ListMultipartUploads not implemented yet") ∧
    (∀ r, fetchHandler env digest resign req ≠ .forward r) ∧
    fetchHandler env digest resign req ≠ .listV2 := by
  have hout : fetchHandler env digest resign req =
        .respond 501 "ListObjects v1 not implemented yet" ∨
      fetchHandler env digest resign req =
        .respond 501 "ListObjectVersions not implemented yet" ∨
      fetchHandler env digest resign req =
        .respond 501 "ListMultipartUploads not implemented yet" := by
    rcases hvariant with h1 | ⟨hv, hne⟩ | ⟨hu, hne⟩ | ⟨hbare, hnone⟩
    · left
      unfold fetchHandler
      simp [hauth, hget, h1, qhas]
    · have hne2 := beq_some_eq_false_of_ne hne
      unfold fetchHandler
      by_cases hb2 : (qhas req.query "list-type" &&
          (qget req.query "list-type" == some "1")) = true
      · left; simp [hauth, hget, hne2, hb2]
      · rw [Bool.not_eq_true] at hb2
        by_cases hb3 : (pathWithoutBucket req.pathname == "" &&
            !qhas req.query "list-type") = true
        · left; simp [hauth, hget, hne2, hb2, hb3]
        · rw [Bool.not_eq_true] at hb3
          right; left
          simp [hauth, hget, hne2, hb2, hb3, hv]
    · have hne2 := beq_some_eq_false_of_ne hne
      unfold fetchHandler
      by_cases hb2 : (qhas req.query "list-type" &&
          (qget req.query "list-type" == some "1")) = true
      · left; simp [hauth, hget, hne2, hb2]
      · rw [Bool.not_eq_true] at hb2
        by_cases hb3 : (pathWithoutBucket req.pathname == "" &&
            !qhas req.query "list-type") = true
        · left; simp [hauth, hget, hne2, hb2, hb3]
        · rw [Bool.not_eq_true] at hb3
          by_cases hb4 : qhas req.query "versions" = true
          · right; left
            simp [hauth, hget, hne2, hb2, hb3, hb4]
          · rw [Bool.not_eq_true] at hb4
            right; right
            simp [hauth, hget, hne2, hb2, hb3, hb4, hu]
    · left
      unfold fetchHandler
      simp [hauth, hget, hbare, hnone, qhas]
  refine ⟨hout, fun r hr => ?_, fun hr => ?_⟩
  · rcases hout with h | h | h <;> rw [h] at hr <;> exact Outcome.noConfusion hr
  · rcases hout with h | h | h <;> rw [h] at hr <;> exact Outcome.noConfusion hr

/-- A concrete valid `Authorization` header for the dispatcher witnesses. -/
def authHeaderW : String :=
  "AWS4-HMAC-SHA256 Credential=CK/20240101/auto/s3/aws4_request, SignedHeaders=host, Signature=deadbeef"

/-- A concrete environment for the dispatcher witnesses. -/
def envW : Env := Env.mk "CK" "CS" "acct" "RK" "RS"

/-- A re-signer that reproduces `authHeaderW` (so verification passes). -/
def resignW : Resigner := fun _ _ => Except.ok (some authHeaderW)

/-- A concrete `GET ?list-type=1` request carrying `authHeaderW`. -/
def reqListV1W : Req :=
  Req.mk "GET" "/multiplex" [("list-type", "1")]
    [("authorization", authHeaderW)] false []

set_option maxRecDepth 4000 in
/-- Witness for C7: the `?list-type=1` request gets one of the 501
responses. -/
theorem c7_witness :
    fetchHandler envW digestZ resignW reqListV1W =
        .respond 501 "ListObjects v1 not implemented yet" ∨
    fetchHandler envW digestZ resignW reqListV1W =
        .respond 501 "ListObjectVersions not implemented yet" ∨
    fetchHandler envW digestZ resignW reqListV1W =
        .respond 501 "ListMultipartUploads not implemented yet" :=
  (c7_unsupported_list_variants_get_501 reqListV1W envW digestZ resignW
    (by decide) rfl (Or.inl rfl)).1

/-! ## C9 — outbound signing strips forwarding headers, hashes the body,
and uses backend credentials for `s3`/`auto` -/

theorem mem_hset {hs : List (String × String)} {k w n v : String}
    (h : (n, v) ∈ hset hs k w) : (n, v) ∈ hs ∨ (n = k ∧ v = w) := by
  unfold hset at h
  rcases List.mem_append.mp h with h1 | h2
  · exact Or.inl (List.mem_of_mem_filter h1)
  · simp only [List.mem_singleton, Prod.mk.injEq] at h2
    exact Or.inr h2

/-- The header-copy fold of `createSignedR2Request` only ever adds
non-dropped (lowercased) header names. -/
theorem foldl_copy_headers_not_dropped (hs : List (String × String))
    (acc : List (String × String))
    (hacc : ∀ n v, (n, v) ∈ acc → isDroppedHeader n = false) :
    ∀ n v, (n, v) ∈ hs.foldl (fun acc kv =>
        let lowerKey := lowerAscii kv.1
        if isDroppedHeader lowerKey then acc else hset acc lowerKey kv.2)
        acc →
      isDroppedHeader n = false := by
  induction hs generalizing acc with
  | nil => exact hacc
  | cons kv hs ih =>
    intro n v hm
    rw [List.foldl_cons] at hm
    refine ih _ ?_ n v hm
    intro n' v' hm'
    by_cases hd : isDroppedHeader (lowerAscii kv.1) = true
    · simp only [hd, if_true] at hm'
      exact hacc n' v' hm'
    · rw [Bool.not_eq_true] at hd
      simp only [hd, Bool.false_eq_true, if_false] at hm'
      rcases mem_hset hm' with h1 | ⟨hn, _⟩
      · exact hacc n' v' h1
      · rw [hn]; exact hd

/-- C9: the header set signed and forwarded by `createSignedR2Request`
contains no `cf-*`, `x-forwarded-for` or `x-real-ip` header; `host` is
set to the backend host (so the original host never leaks into the
signature); `x-amz-content-sha256` is the hex SHA-256 digest of the body
(of the empty byte sequence when there is no body); and the request is
signed with the backend credentials for service `s3` and region
`auto`. -/
theorem c9_outbound_request_headers_and_config
    (method bucketName path : String) (env : Env)
    (queryParams : Option (List (String × String)))
    (headers : List (String × String)) (body : Option (List Nat))
    (digest : List Nat → List Nat) :
    (∀ n v, (n, v) ∈ (createSignedR2Request method bucketName path env
        queryParams (some headers) body digest).headers →
      jsStartsWith n "cf-" = false ∧ n ≠ "x-forwarded-for" ∧
      n ≠ "x-real-ip") ∧
    hlookup (createSignedR2Request method bucketName path env queryParams
        (some headers) body digest).headers "host" =
      some (env.accountId ++ ".r2.cloudflarestorage.com") ∧
    hlookup (createSignedR2Request method bucketName path env queryParams
        (some headers) body digest).headers "x-amz-content-sha256" =
      some (toHex (digest (body.getD []))) ∧
    (createSignedR2Request method bucketName path env queryParams
        (some headers) body digest).config =
      SignConfig.mk env.r2Key env.r2Secret "s3" "auto" := by
  unfold createSignedR2Request
  refine ⟨?_, ?_, ?_, rfl⟩
  · intro n v hm
    have hnotdropped : isDroppedHeader n = false ∨ n = "host" ∨
        n = "x-amz-content-sha256" := by
      rcases mem_hset hm with h1 | ⟨hn, _⟩
      · rcases mem_hset h1 with h2 | ⟨hn, _⟩
        · exact Or.inl (foldl_copy_headers_not_dropped headers []
            (by intro _ _ h; exact absurd h (List.not_mem_nil _)) n v h2)
        · exact Or.inr (Or.inl hn)
      · exact Or.inr (Or.inr hn)
    rcases hnotdropped with h | h | h
    · unfold isDroppedHeader at h
      simp only [Bool.or_eq_false_iff, beq_eq_false_iff_ne] at h
      exact ⟨h.1.1.1, h.1.1.2, h.1.2⟩
    · subst h; refine ⟨by decide, by decide, by decide⟩
    · subst h; refine ⟨by decide, by decide, by decide⟩
  · rw [hlookup_hset]
    rw [if_neg (by decide), hlookup_hset, if_pos rfl]
  · rw [hlookup_hset, if_pos rfl]

/-- Witness for C9 at a concrete inbound header set containing `cf-ray`,
`x-forwarded-for` and `host` entries. -/
theorem c9_witness :
    ((Entry.mk "x" 0).key = "x" →
      (∀ n v, (n, v) ∈ (createSignedR2Request "PUT" "aaaa" "/k" envW none
          (some [("cf-ray", "r"), ("X-Forwarded-For", "1.2.3.4"),
                 ("Host", "proxy.example"), ("Content-Type", "text/plain")])
          (some [104, 105]) digestZ).headers →
        jsStartsWith n "cf-" = false ∧ n ≠ "x-forwarded-for" ∧
        n ≠ "x-real-ip")) ∧
    hlookup (createSignedR2Request "PUT" "aaaa" "/k" envW none
        (some [("cf-ray", "r"), ("X-Forwarded-For", "1.2.3.4"),
               ("Host", "proxy.example"), ("Content-Type", "text/plain")])
        (some [104, 105]) digestZ).headers "host" =
      some (envW.accountId ++ ".r2.cloudflarestorage.com") ∧
    hlookup (createSignedR2Request "PUT" "aaaa" "/k" envW none
        (some [("cf-ray", "r"), ("X-Forwarded-For", "1.2.3.4"),
               ("Host", "proxy.example"), ("Content-Type", "text/plain")])
        (some [104, 105]) digestZ).headers "x-amz-content-sha256" =
      some (toHex (digestZ ((some [104, 105]).getD []))) ∧
    (createSignedR2Request "PUT" "aaaa" "/k" envW none
        (some [("cf-ray", "r"), ("X-Forwarded-For", "1.2.3.4"),
               ("Host", "proxy.example"), ("Content-Type", "text/plain")])
        (some [104, 105]) digestZ).config =
      SignConfig.mk envW.r2Key envW.r2Secret "s3" "auto" :=
  let t := c9_outbound_request_headers_and_config "PUT" "aaaa" "/k" envW none
    [("cf-ray", "r"), ("X-Forwarded-For", "1.2.3.4"),
     ("Host", "proxy.example"), ("Content-Type", "text/plain")]
    (some [104, 105]) digestZ
  ⟨fun _ => t.1, t.2.1, t.2.2.1, t.2.2.2⟩

/-! ## C10 — the body is read only for PUT/POST/PATCH -/

/-- C10: for any method other than PUT, POST or PATCH the dispatcher
never reads the request body (`bodyContent` stays `undefined`), so
verification and outbound signing run over the empty body and the
forwarded request carries `x-amz-content-sha256` equal to the digest of
the empty byte sequence (and no body). -/
theorem c10_body_only_for_put_post_patch
    (req : Req) (env : Env) (digest : List Nat → List Nat) (resign : Resigner)
    (hm : req.method ≠ "PUT" ∧ req.method ≠ "POST" ∧ req.method ≠ "PATCH") :
    computeBody req = none ∧
    (∀ (method bucketName path : String)
        (queryParams headers' : Option (List (String × String))),
      hlookup (createSignedR2Request method bucketName path env queryParams
          headers' (computeBody req) digest).headers "x-amz-content-sha256" =
        some (toHex (digest []))) ∧
    (∀ r, fetchHandler env digest resign req = .forward r →
      r.body = none ∧
      hlookup r.headers "x-amz-content-sha256" = some (toHex (digest []))) := by
  have hcb : computeBody req = none := by
    unfold computeBody
    simp [hm.1, hm.2.1, hm.2.2]
  have hsha : ∀ (method bucketName path : String)
      (queryParams headers' : Option (List (String × String))),
      hlookup (createSignedR2Request method bucketName path env queryParams
          headers' (computeBody req) digest).headers "x-amz-content-sha256" =
        some (toHex (digest [])) := by
    intro method bucketName path queryParams headers'
    rw [hcb]
    unfold createSignedR2Request
    rw [hlookup_hset, if_pos rfl]
    rfl
  refine ⟨hcb, hsha, ?_⟩
  intro r hr
  unfold fetchHandler at hr
  simp only [hcb] at hr
  split at hr
  · exact Outcome.noConfusion hr
  split at hr
  · exact Outcome.noConfusion hr
  split at hr
  · exact Outcome.noConfusion hr
  split at hr
  · exact Outcome.noConfusion hr
  split at hr
  · exact Outcome.noConfusion hr
  split at hr
  · exact Outcome.noConfusion hr
  split at hr
  · exact Outcome.noConfusion hr
  rw [Outcome.forward.injEq] at hr
  rw [← hr]
  refine ⟨rfl, ?_⟩
  have hs := hsha req.method (pickBucket2 digest (extractKey req.pathname))
    ("/" ++ extractKey req.pathname) (some req.query) (some req.headers)
  rw [hcb] at hs
  exact hs

/-- A concrete GET request that nonetheless carries body bytes. -/
def reqGetW : Req :=
  Req.mk "GET" "/multiplex/key1" [] [("authorization", authHeaderW)] true [7, 8]

/-- Witness for C10 at the concrete GET-with-body request. -/
theorem c10_witness :
    computeBody reqGetW = none ∧
    hlookup (createSignedR2Request "GET" "aaaa" "/key1" envW none none
        (computeBody reqGetW) digestZ).headers "x-amz-content-sha256" =
      some (toHex (digestZ [])) :=
  let t := c10_body_only_for_put_post_patch reqGetW envW digestZ resignW
    ⟨by decide, by decide, by decide⟩
  ⟨t.1, t.2.1 "GET" "aaaa" "/key1" none none⟩

/-! ## C8 — the per-bucket over-fetch cap is the fixed constant 1000 -/

/-- C8 counterexample: with the client's default `max-keys` (absent, so
`parseInt('1000') = 1000`) the per-bucket fan-out request carries
`max-keys=1000` as well — equal to the client's value, not strictly
larger, refuting "strictly larger … including the default of 1000". -/
theorem c8_counterexample :
    hlookup (mkBucketParams "" none none false none "aaaa") "max-keys" =
      some "1000" ∧
    requestedMaxKeys none = some 1000 ∧
    ¬ (1000 > 1000) :=
  ⟨by decide, rfl, by omega⟩

/-- C8 amended: every per-bucket list request asks the backend for up to
the fixed internal cap `max-keys=1000`, independent of the client's
requested `maxKeys`; the cap strictly exceeds the client's value exactly
when that value is below 1000 (at the default of 1000 the two are
equal). -/
theorem c8_amended_fixed_cap
    (prefixParam : String) (delimiter startAfter : Option String)
    (fetchOwner : Bool) (parsedToken : Option Json) (bucketName : String)
    (clientMaxKeys : Nat) (h : clientMaxKeys < 1000) :
    hlookup (mkBucketParams prefixParam delimiter startAfter fetchOwner
        parsedToken bucketName) "max-keys" = some "1000" ∧
    1000 > clientMaxKeys := by
  refine ⟨?_, h⟩
  unfold mkBucketParams
  cases parsedToken <;> cases delimiter <;> cases startAfter <;>
    simp [apply_ite (fun l => hlookup l "max-keys"), hlookup_hset]

/-- Witness for C8's amended claim at `clientMaxKeys = 3`. -/
theorem c8_witness :
    hlookup (mkBucketParams "p" (some "/") (some "s") true
        (some (tokenJson "aaaa" "k" 5)) "aaaa") "max-keys" = some "1000" ∧
    1000 > 3 :=
  c8_amended_fixed_cap "p" (some "/") (some "s") true
    (some (tokenJson "aaaa" "k" 5)) "aaaa" 3 (by omega)

/-! ## C2 — the merge sort is locale-collated, not byte-wise -/

/-- C2, evaluated at the failing input: the merge sorts keys with
`localeCompare`, so bucket fragments `["B"]` and `["a"]` merge to
`["a", "B"]`, which is not in byte-wise (S3) order — byte-wise order is
`["B", "a"]`.  The spec's own all-lowercase example (`["b","d"]` +
`["a","c"]`, `maxKeys = 4`) does produce `["a","b","c","d"]` with
`IsTruncated = false`, because the two orders agree on same-case ASCII
keys. -/
theorem c2_locale_sort_not_bytewise :
    handleListObjectsV2 digestZ 4 none none
        [[Entry.mk "B" 0], [Entry.mk "a" 0]] [] =
      .ok [Entry.mk "a" 0, Entry.mk "B" 0] false none [] ∧
    isByteSorted [Entry.mk "a" 0, Entry.mk "B" 0] = false ∧
    isByteSorted [Entry.mk "B" 0, Entry.mk "a" 0] = true ∧
    handleListObjectsV2 digestZ 4 none none
        [[Entry.mk "b" 0, Entry.mk "d" 0], [Entry.mk "a" 0, Entry.mk "c" 0]]
        [] =
      .ok [Entry.mk "a" 0, Entry.mk "b" 0, Entry.mk "c" 0, Entry.mk "d" 0]
        false none [] :=
  ⟨by decide, by decide, by decide, by decide⟩

/-! ## C4 — token decoding: parse failures give 400, but valid JSON of
the wrong shape is accepted -/

/-- C4 counterexample: the tampered token `"bnVsbA=="` (base64 of the
JSON text `null`, not produced by the encoder) decodes successfully, so
the handler does not return 400 — it serves a 200 listing with
pagination silently reset to the start. -/
theorem c4_counterexample :
    decodeContinuationToken "bnVsbA==" = some Json.null ∧
    handleListObjectsV2 digestZ 3 (some "bnVsbA==") none
        [[Entry.mk "a" 0, Entry.mk "b" 0]] [] =
      .ok [Entry.mk "a" 0, Entry.mk "b" 0] false none [] ∧
    handleListObjectsV2 digestZ 3 (some "bnVsbA==") none
        [[Entry.mk "a" 0, Entry.mk "b" 0]] [] ≠
      .respond 400 "Invalid continuation token" :=
  ⟨rfl, by decide, by decide⟩

set_option maxHeartbeats 2000000 in
/-- C4 amended: a continuation token whose base64-decode or JSON-parse
throws is rejected cleanly with HTTP 400 `Invalid continuation token`
(never a crash — the model is total); but a tampered token that decodes
to valid JSON is not validated: `"bnVsbA=="` decodes to JSON `null`,
which is falsy, so the call proceeds exactly as if no token had been
supplied — silently resetting pagination to the start. -/
theorem c4_amended :
    (∀ (digest : List Nat → List Nat) (maxKeys : Nat) (tok : String)
        (startAfter : Option String) (fragments : List (List Entry))
        (prefFragments : List (List String)),
      tok ≠ "" → decodeContinuationToken tok = none →
      handleListObjectsV2 digest maxKeys (some tok) startAfter fragments
          prefFragments = .respond 400 "Invalid continuation token") ∧
    decodeContinuationToken "bnVsbA==" = some Json.null ∧
    (∀ (digest : List Nat → List Nat) (maxKeys : Nat)
        (startAfter : Option String) (fragments : List (List Entry))
        (prefFragments : List (List String)),
      handleListObjectsV2 digest maxKeys (some "bnVsbA==") startAfter
          fragments prefFragments =
        listMerge digest maxKeys (some Json.null) startAfter fragments
          prefFragments) ∧
    (∀ (digest : List Nat → List Nat) (maxKeys : Nat)
        (fragments : List (List Entry)) (prefFragments : List (List String)),
      listMerge digest maxKeys (some Json.null) none fragments prefFragments =
        listMerge digest maxKeys none none fragments prefFragments) := by
  have hdecnull : decodeContinuationToken "bnVsbA==" = some Json.null := rfl
  refine ⟨?_, hdecnull, ?_, ?_⟩
  · intro digest maxKeys tok startAfter fragments prefFragments htok hdec
    simp [handleListObjectsV2, bne_iff_ne.mpr htok, hdec]
  · intro digest maxKeys startAfter fragments prefFragments
    simp [handleListObjectsV2, hdecnull]
  · intro digest maxKeys fragments prefFragments
    have hri : ∀ sorted : List Entry,
        resumeIndex sorted (some Json.null) none =
          resumeIndex sorted none none := fun _ => rfl
    simp only [listMerge, hri]

/-- Witness for C4's amended claim: the malformed token `"!!!"` (not
base64) is rejected with HTTP 400. -/
theorem c4_witness :
    handleListObjectsV2 digestZ 5 (some "!!!") none [[Entry.mk "a" 0]] [] =
      .respond 400 "Invalid continuation token" :=
  c4_amended.1 digestZ 5 "!!!" none [[Entry.mk "a" 0]] []
    (by decide) rfl

/-! ## C5 — continuation-token round-trip

The codec is `btoa ∘ JSON.stringify` against `JSON.parse ∘ atob`.  The
round-trip is proved in three layers: base64 (`atobChunks ∘ btoaChunks`),
the string-literal escaping, and the token-object grammar. -/

theorem b64Val_b64Char : ∀ n, n < 64 → b64Val (b64Char n) = some n := by
  decide

theorem b64Char_ne_pad (n : Nat) : (b64Char n == '=') = false := by
  by_cases h : n < 64
  · exact (by decide : ∀ m, m < 64 → (b64Char m == '=') = false) n h
  · unfold b64Char
    rw [List.getD_eq_default _ _ (by simpa [b64Alpha] using not_lt.mp h)]
    decide

theorem isAsciiWs_b64Char (n : Nat) : isAsciiWs (b64Char n) = false := by
  by_cases h : n < 64
  · exact (by decide : ∀ m, m < 64 → isAsciiWs (b64Char m) = false) n h
  · unfold b64Char
    rw [List.getD_eq_default _ _ (by simpa [b64Alpha] using not_lt.mp h)]
    decide

/-- Decoding inverts encoding on byte lists. -/
theorem atobChunks_btoaChunks : ∀ us : List Nat, (∀ u ∈ us, u ≤ 255) →
    atobChunks (btoaChunks us) = some us
  | [], _ => rfl
  | [a], h => by
    have ha : a ≤ 255 := h a (by simp)
    simp [btoaChunks, atobChunks,
      b64Val_b64Char _ (show a / 4 < 64 by omega),
      b64Val_b64Char _ (show a % 4 * 16 < 64 by omega)]
    omega
  | [a, b], h => by
    have ha : a ≤ 255 := h a (by simp)
    have hb : b ≤ 255 := h b (by simp)
    simp [btoaChunks, atobChunks, b64Char_ne_pad,
      b64Val_b64Char _ (show a / 4 < 64 by omega),
      b64Val_b64Char _ (show a % 4 * 16 + b / 16 < 64 by omega),
      b64Val_b64Char _ (show b % 16 * 4 < 64 by omega)]
    omega
  | a :: b :: c :: rest, h => by
    have ha : a ≤ 255 := h a (by simp)
    have hb : b ≤ 255 := h b (by simp)
    have hc : c ≤ 255 := h c (by simp)
    have ih := atobChunks_btoaChunks rest
      (fun u hu => h u (by simp [hu]))
    simp [btoaChunks, atobChunks, b64Char_ne_pad,
      b64Val_b64Char _ (show a / 4 < 64 by omega),
      b64Val_b64Char _ (show a % 4 * 16 + b / 16 < 64 by omega),
      b64Val_b64Char _ (show b % 16 * 4 + c / 64 < 64 by omega),
      b64Val_b64Char _ (show c % 64 < 64 by omega), ih]
    omega

/-- Every character an encoder output contains is an alphabet character
or the padding `=`; none is ASCII whitespace. -/
theorem btoaChunks_no_ws : ∀ us : List Nat, ∀ c ∈ btoaChunks us,
    isAsciiWs c = false
  | [], _, hc => absurd hc (List.not_mem_nil _)
  | [a], c, hc => by
    simp only [btoaChunks, List.mem_cons, List.not_mem_nil, or_false] at hc
    rcases hc with rfl | rfl | rfl | rfl <;>
      first
        | exact isAsciiWs_b64Char _
        | decide
  | [a, b], c, hc => by
    simp only [btoaChunks, List.mem_cons, List.not_mem_nil, or_false] at hc
    rcases hc with rfl | rfl | rfl | rfl <;>
      first
        | exact isAsciiWs_b64Char _
        | decide
  | a :: b :: cc :: rest, c, hc => by
    simp only [btoaChunks, List.mem_cons] at hc
    rcases hc with rfl | rfl | rfl | rfl | hmem
    · exact isAsciiWs_b64Char _
    · exact isAsciiWs_b64Char _
    · exact isAsciiWs_b64Char _
    · exact isAsciiWs_b64Char _
    · exact btoaChunks_no_ws rest c hmem

/-- The UTF-16 units of a Latin-1 string are its character codes. -/
theorem utf16Units_latin1 :
    ∀ l : List Char, (∀ c ∈ l, c.toNat ≤ 255) →
      ((l.map charUnits).flatten : List Nat) = l.map Char.toNat
  | [], _ => rfl
  | c :: l, h => by
    have hc : c.toNat ≤ 255 := h c (by simp)
    have ih := utf16Units_latin1 l (fun d hd => h d (by simp [hd]))
    simp only [List.map_cons, List.flatten_cons, ih, charUnits,
      if_pos (show c.toNat < 0x10000 by omega)]
    rfl

/-- `atob` inverts `btoa` on Latin-1 strings. -/
theorem atob_btoa_latin1 (s : String) (h : ∀ c ∈ s.data, c.toNat ≤ 255) :
    btoa s = some (⟨btoaChunks (s.data.map Char.toNat)⟩ : String) ∧
    atob (⟨btoaChunks (s.data.map Char.toNat)⟩ : String) = some s := by
  have hu : utf16Units s = s.data.map Char.toNat := utf16Units_latin1 s.data h
  have hall : (s.data.map Char.toNat).all (· ≤ 255) = true := by
    rw [List.all_eq_true]
    intro u hu'
    rw [List.mem_map] at hu'
    obtain ⟨c, hc, rfl⟩ := hu'
    simpa using h c hc
  have hbounds : ∀ u ∈ s.data.map Char.toNat, u ≤ 255 := by
    intro u hu'
    rw [List.mem_map] at hu'
    obtain ⟨c, hc, rfl⟩ := hu'
    exact h c hc
  constructor
  · unfold btoa
    rw [hu, if_pos hall]
  · unfold atob
    have hdata : (⟨btoaChunks (s.data.map Char.toNat)⟩ : String).data =
        btoaChunks (s.data.map Char.toNat) := rfl
    rw [hdata, List.filter_eq_self.mpr (fun c hc => by
      rw [btoaChunks_no_ws _ c hc]; rfl)]
    show Option.map (fun bytes => ({ data := List.map Char.ofNat bytes } : String))
        (atobChunks (btoaChunks (List.map Char.toNat s.data))) = some s
    rw [atobChunks_btoaChunks _ hbounds]
    simp [Char.ofNat_toNat, Function.comp_def]

theorem hexVal_hexChar : ∀ n, n < 16 → hexVal (hexChar n) = some n := by
  decide

set_option maxRecDepth 4000 in
theorem charToNat_ofNat_small : ∀ m, m < 256 → (Char.ofNat m).toNat = m := by
  decide

/-- Parsing a string-literal body inverts `JSON.stringify` escaping. -/
theorem parseStrBody_escape :
    ∀ (l : List Char) (rest : List Char),
      parseStrBody ((l.map jsonEscapeChar).flatten ++ '"' :: rest) =
        some (l, rest)
  | [], rest => by
    simp only [List.map_nil, List.flatten_nil, List.nil_append]
    unfold parseStrBody
    simp
  | c :: l, rest => by
    have ih := parseStrBody_escape l rest
    simp only [List.map_cons, List.flatten_cons, List.append_assoc]
    by_cases h1 : c = '"'
    · subst h1
      simp only [jsonEscapeChar, if_pos rfl, List.cons_append, List.nil_append]
      unfold parseStrBody
      simp [ih]
    by_cases h2 : c = '\\'
    · subst h2
      simp only [jsonEscapeChar]
      norm_num
      unfold parseStrBody
      simp [ih]
    by_cases h3 : c = '\x08'
    · subst h3
      simp only [jsonEscapeChar]
      norm_num
      unfold parseStrBody
      simp [ih]
    by_cases h4 : c = '\t'
    · subst h4
      simp only [jsonEscapeChar]
      norm_num
      unfold parseStrBody
      simp [ih]
    by_cases h5 : c = '\n'
    · subst h5
      simp only [jsonEscapeChar]
      norm_num
      unfold parseStrBody
      simp [ih]
    by_cases h6 : c = '\x0c'
    · subst h6
      simp only [jsonEscapeChar]
      norm_num
      unfold parseStrBody
      simp [ih]
    by_cases h7 : c = '\r'
    · subst h7
      simp only [jsonEscapeChar]
      norm_num
      unfold parseStrBody
      simp [ih]
    by_cases h8 : c.toNat < 32
    · simp only [jsonEscapeChar, if_neg h1, if_neg h2, if_neg h3, if_neg h4,
        if_neg h5, if_neg h6, if_neg h7, if_pos h8]
      simp only [List.cons_append, List.nil_append]
      unfold parseStrBody
      simp [hexVal_hexChar _ (show c.toNat / 16 < 16 by omega),
        hexVal_hexChar _ (show c.toNat % 16 < 16 by omega), ih]
      show some (Char.ofNat
          (((0 * 16 + 0) * 16 + c.toNat / 16) * 16 + c.toNat % 16) :: l,
          rest) = some (c :: l, rest)
      rw [show ((0 * 16 + 0) * 16 + c.toNat / 16) * 16 + c.toNat % 16 =
          c.toNat from by omega, Char.ofNat_toNat]
    · simp only [jsonEscapeChar, if_neg h1, if_neg h2, if_neg h3, if_neg h4,
        if_neg h5, if_neg h6, if_neg h7, if_neg h8]
      simp only [List.cons_append, List.nil_append]
      unfold parseStrBody
      simp [if_neg h1, if_neg h2, if_neg h8, ih]

/-- The value of a little-endian digit list. -/
def ofDigitsRev : List Nat → Nat
  | [] => 0
  | d :: ds => d + 10 * ofDigitsRev ds

theorem decDigitsRevFuel_value : ∀ (fuel n : Nat), n < fuel →
    ofDigitsRev (decDigitsRevFuel fuel n) = n
  | 0, n, h => absurd h (by omega)
  | fuel + 1, n, h => by
    unfold decDigitsRevFuel
    by_cases h10 : n < 10
    · simp [h10, ofDigitsRev]
    · have hrec := decDigitsRevFuel_value fuel (n / 10) (by omega)
      simp [h10, ofDigitsRev, hrec]
      omega

theorem decDigitsRevFuel_lt10 : ∀ (fuel n : Nat), n < fuel →
    ∀ d ∈ decDigitsRevFuel fuel n, d < 10
  | 0, n, h, _, _ => absurd h (by omega)
  | fuel + 1, n, h, d, hd => by
    unfold decDigitsRevFuel at hd
    by_cases h10 : n < 10
    · simp [h10] at hd
      omega
    · simp [h10] at hd
      rcases hd with rfl | hd
      · omega
      · exact decDigitsRevFuel_lt10 fuel (n / 10) (by omega) d hd

theorem decDigitsRevFuel_ne_nil (fuel n : Nat) (h : n < fuel) :
    decDigitsRevFuel fuel n ≠ [] := by
  cases fuel with
  | zero => omega
  | succ fuel =>
    unfold decDigitsRevFuel
    by_cases h10 : n < 10 <;> simp [h10]

theorem decDigitsRevFuel_getLast_pos : ∀ (fuel n : Nat), n < fuel → 0 < n →
    ∀ d, (decDigitsRevFuel fuel n).getLast? = some d → 0 < d
  | 0, n, h, _, _, _ => absurd h (by omega)
  | fuel + 1, n, h, hn, d, hd => by
    unfold decDigitsRevFuel at hd
    by_cases h10 : n < 10
    · simp [h10] at hd
      omega
    · rw [if_neg h10] at hd
      cases hrec : decDigitsRevFuel fuel (n / 10) with
      | nil => exact absurd hrec (decDigitsRevFuel_ne_nil fuel (n / 10) (by omega))
      | cons e es =>
        rw [hrec, List.getLast?_cons_cons] at hd
        exact decDigitsRevFuel_getLast_pos fuel (n / 10) (by omega) (by omega) d
          (by rw [hrec]; exact hd)

theorem foldl_digits_value :
    ∀ (ds : List Nat) (acc : Nat), (∀ d ∈ ds, d < 10) →
      List.foldl (fun a c => 10 * a + (c.toNat - 48)) acc
          (ds.reverse.map (fun d => Char.ofNat (48 + d))) =
        acc * 10 ^ ds.length + ofDigitsRev ds
  | [], acc, _ => by simp [ofDigitsRev]
  | d :: ds, acc, h => by
    have hd : d < 10 := h d (by simp)
    have ih := foldl_digits_value ds acc (fun e he => h e (by simp [he]))
    simp only [List.reverse_cons, List.map_append, List.map_cons,
      List.map_nil, List.foldl_append, List.foldl_cons, List.foldl_nil, ih]
    rw [charToNat_ofNat_small (48 + d) (by omega)]
    simp only [ofDigitsRev, List.length_cons]
    ring_nf
    omega

/-- The decimal rendering folds back to its value. -/
theorem foldl_natToDec (pos : Nat) :
    List.foldl (fun a c => 10 * a + (c.toNat - 48)) 0 (natToDec pos) = pos := by
  unfold natToDec decDigitsRev
  rw [foldl_digits_value _ 0 (decDigitsRevFuel_lt10 (pos + 1) pos (by omega))]
  rw [decDigitsRevFuel_value (pos + 1) pos (by omega)]
  ring_nf

theorem natToDec_digits (pos : Nat) :
    ∀ c ∈ natToDec pos, c.isDigit = true := by
  intro c hc
  unfold natToDec decDigitsRev at hc
  rw [List.mem_map] at hc
  obtain ⟨d, hd, rfl⟩ := hc
  rw [List.mem_reverse] at hd
  have hd10 := decDigitsRevFuel_lt10 (pos + 1) pos (by omega) d hd
  exact (by decide : ∀ e, e < 10 → (Char.ofNat (48 + e)).isDigit = true) d hd10

/-- For a positive value the rendering starts with a nonzero digit. -/
theorem natToDec_shape (pos : Nat) (hp : 0 < pos) :
    ∃ d0 ds, natToDec pos = Char.ofNat (48 + d0) :: ds ∧ 0 < d0 ∧ d0 < 10 ∧
      (∀ c ∈ ds, c.isDigit = true) := by
  have hnil := decDigitsRevFuel_ne_nil (pos + 1) pos (by omega)
  cases hrev : (decDigitsRevFuel (pos + 1) pos).reverse with
  | nil => exact absurd (List.reverse_eq_nil_iff.mp hrev) hnil
  | cons d rest =>
    have hdmem : d ∈ decDigitsRevFuel (pos + 1) pos := by
      rw [← List.mem_reverse, hrev]; simp
    have hd10 := decDigitsRevFuel_lt10 (pos + 1) pos (by omega) d hdmem
    have hdpos : 0 < d := by
      refine decDigitsRevFuel_getLast_pos (pos + 1) pos (by omega) hp d ?_
      rw [← List.head?_reverse, hrev]
      rfl
    refine ⟨d, rest.map (fun e => Char.ofNat (48 + e)), ?_, hdpos, hd10, ?_⟩
    · unfold natToDec decDigitsRev
      rw [hrev]
      rfl
    · intro c hc
      rw [List.mem_map] at hc
      obtain ⟨e, he, rfl⟩ := hc
      have hemem : e ∈ decDigitsRevFuel (pos + 1) pos := by
        rw [← List.mem_reverse, hrev]; simp [he]
      have he10 := decDigitsRevFuel_lt10 (pos + 1) pos (by omega) e hemem
      exact (by decide : ∀ x, x < 10 → (Char.ofNat (48 + x)).isDigit = true) e he10

theorem parseDigitsAcc_append :
    ∀ (ds : List Char) (acc : Nat) (r' : List Char),
      (∀ c ∈ ds, c.isDigit = true) →
      (match r' with | [] => True | c :: _ => c.isDigit = false) →
      parseDigitsAcc acc (ds ++ r') =
        (ds.foldl (fun a c => 10 * a + (c.toNat - 48)) acc, r')
  | [], acc, r', _, hr => by
    cases r' with
    | nil => rfl
    | cons c r'' => simp [parseDigitsAcc, hr]
  | c :: ds, acc, r', h, hr => by
    have hc := h c (by simp)
    have ih := parseDigitsAcc_append ds (10 * acc + (c.toNat - 48)) r'
      (fun d hd => h d (by simp [hd])) hr
    simp [parseDigitsAcc, hc, ih]

theorem natToDec_head (pos : Nat) :
    ∃ d0 ds, natToDec pos = Char.ofNat (48 + d0) :: ds ∧ d0 < 10 := by
  by_cases hp : pos = 0
  · exact ⟨0, [], by subst hp; rfl, by omega⟩
  · obtain ⟨d0, ds, hshape, _, hlt, _⟩ := natToDec_shape pos (by omega)
    exact ⟨d0, ds, hshape, hlt⟩

/-- The number parser inverts the decimal rendering (up to a closing
brace, the character that follows the `position` field). -/
theorem parseUnsigned_natToDec (pos : Nat) (r : List Char) :
    parseUnsigned (natToDec pos ++ '}' :: r) =
      some (.num (pos : Int), '}' :: r) := by
  by_cases hp : pos = 0
  · subst hp
    rw [show natToDec 0 = ['0'] from rfl]
    simp only [List.cons_append, List.nil_append]
    simp only [parseUnsigned]
    simp only [parseNumTail]
    simp
  · obtain ⟨d0, ds, hshape, hd0pos, hd0lt, hds⟩ := natToDec_shape pos (by omega)
    rw [hshape]
    simp only [List.cons_append]
    have hne0 : ¬ (Char.ofNat (48 + d0) = '0') := by
      intro he
      have h48 := charToNat_ofNat_small (48 + d0) (by omega)
      rw [he] at h48
      have h0 : ('0').toNat = 48 := rfl
      omega
    have hdig : (Char.ofNat (48 + d0)).isDigit = true :=
      (by decide : ∀ d, d < 10 → (Char.ofNat (48 + d)).isDigit = true) d0 hd0lt
    have hval : ds.foldl (fun a c => 10 * a + (c.toNat - 48))
        ((Char.ofNat (48 + d0)).toNat - 48) = pos := by
      rw [show (Char.ofNat (48 + d0)).toNat - 48 =
          10 * 0 + ((Char.ofNat (48 + d0)).toNat - 48) from by omega]
      rw [← List.foldl_cons, ← hshape, foldl_natToDec]
    simp only [parseUnsigned, hne0, hdig, if_false, if_true]
    simp only [parseDigitsAcc_append ds _ ('}' :: r) hds
      ((by decide : ('}').isDigit = false) : _), hval]
    simp only [parseNumTail]
    simp

/-- The value parser on a decimal number followed by `}`. -/
theorem parseValue_number (f : Nat) (pos : Nat) (r : List Char) :
    parseValue (f + 1) (natToDec pos ++ '}' :: r) =
      some (.num (pos : Int), '}' :: r) := by
  obtain ⟨d0, ds, hshape, hlt⟩ := natToDec_head pos
  obtain ⟨hws, hq, hbr, hbk, ht, hf, hn, hm, hdig⟩ := (by decide : ∀ d, d < 10 →
      ((Char.ofNat (48 + d) == ' ' || Char.ofNat (48 + d) == '\t' ||
        Char.ofNat (48 + d) == '\n' || Char.ofNat (48 + d) == '\r') = false) ∧
      ¬ (Char.ofNat (48 + d) = '"') ∧ ¬ (Char.ofNat (48 + d) = '{') ∧
      ¬ (Char.ofNat (48 + d) = '[') ∧ ¬ (Char.ofNat (48 + d) = 't') ∧
      ¬ (Char.ofNat (48 + d) = 'f') ∧ ¬ (Char.ofNat (48 + d) = 'n') ∧
      ¬ (Char.ofNat (48 + d) = '-') ∧ (Char.ofNat (48 + d)).isDigit = true)
    d0 hlt
  rw [hshape, List.cons_append]
  have hskip : skipWsJson (Char.ofNat (48 + d0) :: (ds ++ '}' :: r)) =
      Char.ofNat (48 + d0) :: (ds ++ '}' :: r) := by
    unfold skipWsJson
    rw [List.dropWhile_cons, if_neg (by simp [hws])]
  simp only [parseValue, hskip, hq, hbr, hbk, ht, hf, hn, hm, hdig,
    if_false, if_true]
  rw [← List.cons_append, ← hshape, parseUnsigned_natToDec]

theorem string_mk_data (s : String) : (⟨s.data⟩ : String) = s := rfl

/-- The value parser on an escaped, quoted string literal. -/
theorem parseValue_strlit (f : Nat) (s : String) (rest : List Char) :
    parseValue (f + 1)
        ('"' :: ((s.data.map jsonEscapeChar).flatten ++ '"' :: rest)) =
      some (.str s, rest) := by
  simp [parseValue, skipWsJson, parseStrBody_escape, string_mk_data]

/-- Parsing inverts `JSON.stringify` on the token object. -/
theorem parseValue_token (f : Nat) (b k : String) (pos : Nat) :
    parseValue (f + 5) (stringifyToken b k pos).data =
      some (tokenJson b k pos, []) := by
  rw [show (stringifyToken b k pos).data =
      "\x7b\"bucket\":".data ++ jsonQuote b ++ ",\"key\":".data ++ jsonQuote k ++
      ",\"position\":".data ++ natToDec pos ++ "\x7d".data from rfl]
  simp only [show "\x7b\"bucket\":".data =
      ['{','"','b','u','c','k','e','t','"',':'] from rfl,
    show ",\"key\":".data = [',','"','k','e','y','"',':'] from rfl,
    show ",\"position\":".data =
      [',','"','p','o','s','i','t','i','o','n','"',':'] from rfl,
    show "\x7d".data = ['}'] from rfl, jsonQuote,
    List.cons_append, List.append_assoc, List.nil_append]
  have hbucketKey : ∀ tail : List Char,
      parseStrBody ('b' :: 'u' :: 'c' :: 'k' :: 'e' :: 't' :: '"' :: tail) =
        some (['b','u','c','k','e','t'], tail) := fun tail =>
    parseStrBody_escape ['b','u','c','k','e','t'] tail
  rw [show f + 5 = f + 4 + 1 from rfl]
  simp [parseValue, skipWsJson]
  rw [show f + 4 = f + 3 + 1 from rfl]
  have hkeyKey : ∀ tail : List Char,
      parseStrBody ('k' :: 'e' :: 'y' :: '"' :: tail) = some (['k','e','y'], tail) :=
    fun tail => parseStrBody_escape ['k','e','y'] tail
  have hposKey : ∀ tail : List Char,
      parseStrBody ('p' :: 'o' :: 's' :: 'i' :: 't' :: 'i' :: 'o' :: 'n' :: '"' :: tail) =
        some (['p','o','s','i','t','i','o','n'], tail) :=
    fun tail => parseStrBody_escape ['p','o','s','i','t','i','o','n'] tail
  have hb1 : (⟨['b','u','c','k','e','t']⟩ : String) = "bucket" := rfl
  have hk1 : (⟨['k','e','y']⟩ : String) = "key" := rfl
  have hp1 : (⟨['p','o','s','i','t','i','o','n']⟩ : String) = "position" := rfl
  simp [parseMembers, skipWsJson, hbucketKey, hkeyKey, hposKey,
    parseValue_strlit, parseValue_number, tokenJson, hb1, hk1, hp1]

/-- `JSON.parse` inverts `JSON.stringify` on the token object. -/
theorem jsonParse_token (b k : String) (pos : Nat) :
    jsonParse (stringifyToken b k pos) = some (tokenJson b k pos) := by
  unfold jsonParse
  rw [show (stringifyToken b k pos).data.length + 10 =
      ((stringifyToken b k pos).data.length + 5) + 5 from rfl]
  rw [parseValue_token]
  rfl

theorem hexChar_le (n : Nat) : (hexChar n).toNat ≤ 255 := by
  by_cases h : n < 16
  · exact (by decide : ∀ m, m < 16 → (hexChar m).toNat ≤ 255) n h
  · unfold hexChar
    rw [List.getD_eq_default _ _ (by simpa using not_lt.mp h)]
    decide

theorem jsonEscapeChar_latin1 (c : Char) (hc : c.toNat ≤ 255) :
    ∀ e ∈ jsonEscapeChar c, e.toNat ≤ 255 := by
  intro e he
  unfold jsonEscapeChar at he
  split_ifs at he <;> simp only [List.mem_cons, List.not_mem_nil,
    or_false] at he <;>
    first
      | (rcases he with rfl | rfl <;> decide)
      | (rcases he with rfl | rfl | rfl | rfl | rfl | rfl <;>
          first
            | decide
            | exact hexChar_le _)
      | (rcases he with rfl; exact hc)

theorem natToDec_le255 (pos : Nat) :
    ∀ c ∈ natToDec pos, c.toNat ≤ 255 := by
  intro c hc
  unfold natToDec decDigitsRev at hc
  rw [List.mem_map] at hc
  obtain ⟨d, hd, rfl⟩ := hc
  rw [List.mem_reverse] at hd
  have hd10 := decDigitsRevFuel_lt10 (pos + 1) pos (by omega) d hd
  exact (by decide : ∀ e, e < 10 → (Char.ofNat (48 + e)).toNat ≤ 255) d hd10

/-- The serialized token of Latin-1 `bucket`/`key` strings is Latin-1. -/
theorem stringifyToken_latin1 (b k : String) (pos : Nat)
    (hb : ∀ c ∈ b.data, c.toNat ≤ 255) (hk : ∀ c ∈ k.data, c.toNat ≤ 255) :
    ∀ c ∈ (stringifyToken b k pos).data, c.toNat ≤ 255 := by
  intro c hc
  rw [show (stringifyToken b k pos).data =
      "\x7b\"bucket\":".data ++ jsonQuote b ++ ",\"key\":".data ++ jsonQuote k ++
      ",\"position\":".data ++ natToDec pos ++ "\x7d".data from rfl] at hc
  have hquote : ∀ (s : String), (∀ d ∈ s.data, d.toNat ≤ 255) →
      c ∈ jsonQuote s → c.toNat ≤ 255 := by
    intro s hs hcq
    unfold jsonQuote at hcq
    rcases List.mem_cons.mp hcq with rfl | hcq
    · decide
    rcases List.mem_append.mp hcq with hcq | hcq
    · rw [List.mem_flatten] at hcq
      obtain ⟨piece, hpiece, hcp⟩ := hcq
      rw [List.mem_map] at hpiece
      obtain ⟨d, hd, rfl⟩ := hpiece
      exact jsonEscapeChar_latin1 d (hs d hd) c hcp
    · simp only [List.mem_singleton] at hcq
      subst hcq; decide
  simp only [List.mem_append] at hc
  rcases hc with ((((((hc | hc) | hc) | hc) | hc) | hc) | hc)
  · exact (by decide : ∀ e ∈ "\x7b\"bucket\":".data, e.toNat ≤ 255) c hc
  · exact hquote b hb hc
  · exact (by decide : ∀ e ∈ ",\"key\":".data, e.toNat ≤ 255) c hc
  · exact hquote k hk hc
  · exact (by decide : ∀ e ∈ ",\"position\":".data, e.toNat ≤ 255) c hc
  · exact natToDec_le255 pos c hc
  · exact (by decide : ∀ e ∈ "\x7d".data, e.toNat ≤ 255) c hc

/-- C5 counterexample: for the key `"€"` (code point `0x20AC`, above
`0xFF`), `btoa` throws while building the token, so the triple
`{bucket: "b", key: "€", position: 42}` does not round-trip — encoding
already fails. -/
theorem c5_counterexample : encodeContinuationToken "b" "€" 42 = none := by
  decide

/-- C5 amended: for every triple whose `bucket` and `key` consist of
characters with code points at most `0xFF` (the strings `btoa` accepts)
and natural-number `position`, encoding the token and then decoding it
(base64-decode, then JSON-parse, as the handler does) yields exactly the
JSON object `{bucket, key, position}`, whose field reads return the
original components. -/
theorem c5_amended_roundtrip (bucket key : String) (position : Nat)
    (hb : ∀ c ∈ bucket.data, c.toNat ≤ 255)
    (hk : ∀ c ∈ key.data, c.toNat ≤ 255) :
    ∃ tok, encodeContinuationToken bucket key position = some tok ∧
      decodeContinuationToken tok = some (tokenJson bucket key position) ∧
      jGet (tokenJson bucket key position) "bucket" = some (.str bucket) ∧
      jGet (tokenJson bucket key position) "key" = some (.str key) ∧
      jGet (tokenJson bucket key position) "position" =
        some (.num (position : Int)) := by
  have hlat := stringifyToken_latin1 bucket key position hb hk
  obtain ⟨henc, hdec⟩ :=
    atob_btoa_latin1 (stringifyToken bucket key position) hlat
  refine ⟨_, henc, ?_, rfl, rfl, rfl⟩
  unfold decodeContinuationToken
  rw [hdec]
  simp [jsonParse_token]

/-- Witness for C5's amended claim at `{bucket: "b", key: "k",
position: 42}`. -/
theorem c5_witness :
    ∃ tok, encodeContinuationToken "b" "k" 42 = some tok ∧
      decodeContinuationToken tok = some (tokenJson "b" "k" 42) ∧
      jGet (tokenJson "b" "k" 42) "bucket" = some (.str "b") ∧
      jGet (tokenJson "b" "k" 42) "key" = some (.str "k") ∧
      jGet (tokenJson "b" "k" 42) "position" = some (.num (42 : Int)) :=
  c5_amended_roundtrip "b" "k" 42 (by decide) (by decide)

/-! ## C3 — the resume position and the returned page -/

/-- Characterization of `findIndex`-with-`-1`-fallback: the computed
index is bounded by the length, the predicate is false strictly before
it, true at it when it is a real hit, and it equals the length when the
predicate holds nowhere. -/
theorem findIdxD_spec (p : Entry → Bool) (l : List Entry) :
    ((l.findIdx? p).getD l.length ≤ l.length) ∧
    (∀ j (hj : j < l.length), j < (l.findIdx? p).getD l.length →
      p (l.get ⟨j, hj⟩) = false) ∧
    (∀ h : (l.findIdx? p).getD l.length < l.length,
      p (l.get ⟨(l.findIdx? p).getD l.length, h⟩) = true) ∧
    ((∀ e ∈ l, p e = false) → (l.findIdx? p).getD l.length = l.length) := by
  cases hfi : l.findIdx? p with
  | none =>
    simp only [hfi, Option.getD_none]
    refine ⟨le_refl _, ?_, ?_, fun _ => trivial⟩
    · intro j hj _
      exact List.findIdx?_eq_none_iff.mp hfi _ (List.get_mem l j hj)
    · intro h
      exact absurd h (lt_irrefl _)
  | some j =>
    obtain ⟨hjlt, hji⟩ := List.findIdx?_eq_some_iff_findIdx_eq.mp hfi
    simp only [hfi, Option.getD_some]
    have hhit : p (l.get ⟨j, hjlt⟩) = true := by
      have hw : List.findIdx p l < l.length := by omega
      have := List.findIdx_getElem (w := hw)
      simp only [hji] at this
      simpa using this
    refine ⟨le_of_lt hjlt, ?_, ?_, ?_⟩
    · intro m hm hmj
      have hmlt : m < List.findIdx p l := by omega
      have := List.not_of_lt_findIdx hmlt
      simpa using this
    · intro h
      exact hhit
    · intro hall
      have h2 := hall _ (List.get_mem l j hjlt)
      rw [hhit] at h2
      exact absurd h2 (by simp)

/-- The merged key list in the spec's pagination scenario. -/
def tenKeys : List Entry :=
  [⟨"k0", 0⟩, ⟨"k1", 0⟩, ⟨"k2", 0⟩, ⟨"k3", 0⟩, ⟨"k4", 0⟩,
   ⟨"k5", 0⟩, ⟨"k6", 0⟩, ⟨"k7", 0⟩, ⟨"k8", 0⟩, ⟨"k9", 0⟩]

/-- The token the first page of the scenario produces
(`{"bucket":"aaaa","key":"k2","position":3}`). -/
def tokenPage1 : String :=
  "eyJidWNrZXQiOiJhYWFhIiwia2V5IjoiazIiLCJwb3NpdGlvbiI6M30="

/-- The token the second page of the scenario produces
(`{"bucket":"aaaa","key":"k5","position":6}`). -/
def tokenPage2 : String :=
  "eyJidWNrZXQiOiJhYWFhIiwia2V5IjoiazUiLCJwb3NpdGlvbiI6Nn0="

/-- C3: the resume position is `0` with neither a continuation token nor
a (truthy) `startAfter`; with a decoded token it is the index of the
first entry whose key is strictly greater (in JS string order) than the
token's `key`, and the list length when there is none (an empty page,
not an error); with only `startAfter` the same rule applies against that
value; every non-thrown merge outcome returns exactly the slice
`[p, p + maxKeys)` with `IsTruncated = p + maxKeys < totalMerged`; and
the concrete 10-key scenario pages `k0–k2` then — via the returned token
— `k3–k5`, both truncated. -/
theorem c3_resume_position_and_page :
    (∀ sorted : List Entry, resumeIndex sorted none none = 0) ∧
    (∀ sorted : List Entry, resumeIndex sorted none (some "") = 0) ∧
    (∀ (sorted : List Entry) (tb tk : String) (tp : Nat) (sa : Option String),
      resumeIndex sorted (some (tokenJson tb tk tp)) sa ≤ sorted.length ∧
      (∀ j (hj : j < sorted.length),
        j < resumeIndex sorted (some (tokenJson tb tk tp)) sa →
        jsStrGt (sorted.get ⟨j, hj⟩).key tk = false) ∧
      (∀ h : resumeIndex sorted (some (tokenJson tb tk tp)) sa < sorted.length,
        jsStrGt (sorted.get
          ⟨resumeIndex sorted (some (tokenJson tb tk tp)) sa, h⟩).key tk =
          true) ∧
      ((∀ e ∈ sorted, jsStrGt e.key tk = false) →
        resumeIndex sorted (some (tokenJson tb tk tp)) sa = sorted.length)) ∧
    (∀ (sorted : List Entry) (sa : String), sa ≠ "" →
      resumeIndex sorted none (some sa) ≤ sorted.length ∧
      (∀ j (hj : j < sorted.length),
        j < resumeIndex sorted none (some sa) →
        jsStrGt (sorted.get ⟨j, hj⟩).key sa = false) ∧
      (∀ h : resumeIndex sorted none (some sa) < sorted.length,
        jsStrGt (sorted.get ⟨resumeIndex sorted none (some sa), h⟩).key sa =
          true) ∧
      ((∀ e ∈ sorted, jsStrGt e.key sa = false) →
        resumeIndex sorted none (some sa) = sorted.length)) ∧
    (∀ (digest : List Nat → List Nat) (maxKeys : Nat)
        (parsedToken : Option Json) (startAfter : Option String)
        (fragments : List (List Entry)) (prefFragments : List (List String))
        (cs : List Entry) (it : Bool) (nt : Option String) (cp : List String),
      listMerge digest maxKeys parsedToken startAfter fragments
          prefFragments = .ok cs it nt cp →
      cs = ((sortEntries fragments.flatten).drop
          (resumeIndex (sortEntries fragments.flatten) parsedToken
            startAfter)).take maxKeys ∧
      (it = true ↔ resumeIndex (sortEntries fragments.flatten) parsedToken
          startAfter + maxKeys < (sortEntries fragments.flatten).length)) ∧
    (handleListObjectsV2 digestZ 3 none none [tenKeys] [] =
      .ok [⟨"k0", 0⟩, ⟨"k1", 0⟩, ⟨"k2", 0⟩] true (some tokenPage1) [] ∧
     handleListObjectsV2 digestZ 3 (some tokenPage1) none [tenKeys] [] =
      .ok [⟨"k3", 0⟩, ⟨"k4", 0⟩, ⟨"k5", 0⟩] true (some tokenPage2) []) := by
  refine ⟨fun _ => rfl, fun _ => rfl, ?_, ?_, ?_, by decide, by decide⟩
  · intro sorted tb tk tp sa
    exact findIdxD_spec (fun o => jsStrGt o.key tk) sorted
  · intro sorted sa hsa
    have hres : resumeIndex sorted none (some sa) =
        (sorted.findIdx? (fun o => jsStrGt o.key sa)).getD sorted.length := by
      unfold resumeIndex
      simp [bne_iff_ne.mpr hsa]
    rw [hres]
    exact findIdxD_spec (fun o => jsStrGt o.key sa) sorted
  · intro digest maxKeys parsedToken startAfter fragments prefFragments
      cs it nt cp h
    simp only [listMerge] at h
    split at h
    · split at h
      · exact absurd h (by simp)
      · rw [ListOutcome.ok.injEq] at h
        refine ⟨h.1.symm, ?_⟩
        rw [← h.2.1]
        simp
    · rw [ListOutcome.ok.injEq] at h
      refine ⟨h.1.symm, ?_⟩
      rw [← h.2.1]
      simp

/-- Witness for C3: a two-entry merge with `maxKeys = 1` pages exactly
the first entry and reports truncation. -/
theorem c3_witness :
    ([(⟨"a", 0⟩ : Entry)] =
      ((sortEntries ([[⟨"a", 0⟩, ⟨"b", 0⟩]] :
          List (List Entry)).flatten).drop
        (resumeIndex (sortEntries ([[⟨"a", 0⟩, ⟨"b", 0⟩]] :
          List (List Entry)).flatten) none none)).take 1) ∧
    (true = true ↔ resumeIndex (sortEntries ([[⟨"a", 0⟩, ⟨"b", 0⟩]] :
        List (List Entry)).flatten) none none + 1 <
      (sortEntries ([[⟨"a", 0⟩, ⟨"b", 0⟩]] :
        List (List Entry)).flatten).length) :=
  c3_resume_position_and_page.2.2.2.2.1 digestZ 1 none none
    [[⟨"a", 0⟩, ⟨"b", 0⟩]] [] [⟨"a", 0⟩] true
    (some "eyJidWNrZXQiOiJhYWFhIiwia2V5IjoiYSIsInBvc2l0aW9uIjoxfQ==") []
    (by decide)

end R2
